import Mathlib

/-!
Verification development for the WhatsApp interview bot (`server.js`).

The development shallowly embeds:
* the pure message-classification heuristics (`isStartMessage`,
  `isClarification`, `isUserQuestion`, `isProbablyAnswer`,
  `isConfirmationOnly`, `isMetaNonAnswer`, `isSubstantiveAnswer`,
  `isValidAnswerContent`, `sanitizeAssistantReply`),
* the conversational delegate `converseOnAnswer` (network call abstracted as
  an upstream-outcome input),
* the scoring pipeline `analyzeCandidate` / `finalizeAndNotify`,
* the `/webhook` session state machine as a single-turn step function
  `webhookStep` over the persisted session document, with explicit
  save-points (a branch that returns without `sessionDoc.save()` leaves the
  persisted document unchanged).

JavaScript regular-expression tests are embedded with a small executable
token matcher (`matchLen`): each regex of the source is transcribed as a
list of tokens (literals, optional literals, character-class star/plus,
alternations of literals, word boundary, end anchor).  Matching is
case-insensitive, mirroring the `/i` flags and the `toLowerCase()`
pre-lowering at the call sites.
-/

/-- Whitespace test, embedding the JS `\s` character class. -/
def isWs (c : Char) : Bool := c.isWhitespace

/-- Character class of JS `.` (anything but a line terminator). -/
def notNl (c : Char) : Bool := !(c = '\n' || c = '\r')

/-- JS `\w` word character (ASCII letters, digits, underscore), used by `\b`. -/
def isWordChar (c : Char) : Bool := c.isAlphanum || c = '_'

/-- Apostrophe character, built numerically (U+0027). -/
def apos : Char := Char.ofNat 39

/-- One token of an embedded regular expression. -/
inductive Tok where
  /-- a literal string -/
  | lit (l : List Char)
  /-- an optional literal (JS `x?` on a literal) -/
  | optLit (l : List Char)
  /-- zero or more characters of a class (JS `\s*`, `.*`) -/
  | starP (p : Char → Bool)
  /-- one or more characters of a class (JS `\s+`, `x+`) -/
  | plusP (p : Char → Bool)
  /-- an alternation of literals (JS `(a|b|c)`) -/
  | altLit (ls : List (List Char))
  /-- a non-word-character-or-end boundary (JS trailing `\b`) -/
  | nwb
  /-- end-of-input anchor (JS `$`) -/
  | eos

/-- Size of a token, counting the alternatives of an alternation. -/
def tokSize : Tok → Nat
  | .altLit ls => ls.length + 1
  | _ => 1

/-- Size of a token list, for termination of the matcher. -/
def toksSize (ts : List Tok) : Nat := (ts.map tokSize).sum

/-- Case-insensitive character equality (the `/i` regex flag). -/
def lcEq (a b : Char) : Bool := a.toLower == b.toLower

/-- Case-insensitive literal-prefix test. -/
def ciPre : List Char → List Char → Bool
  | [], _ => true
  | _ :: _, [] => false
  | a :: l, c :: cs => lcEq a c && ciPre l cs

/-- Greedy backtracking matcher with explicit fuel: the length of a match of
the token list at the start of the input, if any (embeds `RegExp` matching
for the token shapes that occur in the source).  Every recursive call
strictly decreases `cs.length + toksSize ts`, so with the fuel chosen by
`matchLen` the `0` case is unreachable. -/
def matchLenF : Nat → List Tok → List Char → Option Nat
  | 0, _, _ => none
  | _ + 1, [], _ => some 0
  | fuel + 1, .lit l :: ts, cs =>
    if ciPre l cs then (matchLenF fuel ts (cs.drop l.length)).map (· + l.length)
    else none
  | fuel + 1, .optLit l :: ts, cs =>
    (if ciPre l cs then (matchLenF fuel ts (cs.drop l.length)).map (· + l.length)
     else none).orElse
      (fun _ => matchLenF fuel ts cs)
  | fuel + 1, .starP p :: ts, cs =>
    (match cs with
      | c :: cs' =>
        if p c then (matchLenF fuel (.starP p :: ts) cs').map (· + 1) else none
      | [] => none).orElse
      (fun _ => matchLenF fuel ts cs)
  | fuel + 1, .plusP p :: ts, cs =>
    match cs with
    | c :: cs' =>
      if p c then (matchLenF fuel (.starP p :: ts) cs').map (· + 1) else none
    | [] => none
  | _ + 1, .altLit [] :: _, _ => none
  | fuel + 1, .altLit (l :: ls) :: ts, cs =>
    (if ciPre l cs then (matchLenF fuel ts (cs.drop l.length)).map (· + l.length)
     else none).orElse
      (fun _ => matchLenF fuel (.altLit ls :: ts) cs)
  | fuel + 1, .nwb :: ts, cs =>
    if (match cs with | [] => true | c :: _ => !isWordChar c) then
      matchLenF fuel ts cs
    else none
  | fuel + 1, .eos :: ts, cs => if cs.isEmpty then matchLenF fuel ts cs else none

/-- Matching with sufficient fuel (`cs.length + toksSize ts + 1` bounds the
call depth exactly). -/
def matchLen (ts : List Tok) (cs : List Char) : Option Nat :=
  matchLenF (cs.length + toksSize ts + 1) ts cs

/-- Whether the token list matches at the start of the input. -/
def matchesAt (pat : List Tok) (cs : List Char) : Bool := (matchLen pat cs).isSome

/-- Unanchored regex test (JS `re.test(m)` without `^`): match at any start. -/
def searchPat (pat : List Tok) : List Char → Bool
  | [] => matchesAt pat []
  | c :: cs' => matchesAt pat (c :: cs') || searchPat pat cs'

/-- Any of the alternatives of a top-level alternation matches somewhere. -/
def testAny (pats : List (List Tok)) (cs : List Char) : Bool :=
  pats.any (fun p => searchPat p cs)

/-- Anchored regex test (JS `^...$`). -/
def fullMatch (pat : List Tok) (cs : List Char) : Bool :=
  (matchLen (pat ++ [.eos]) cs).isSome

/-- Any of a list of anchored patterns matches the whole input. -/
def fullAny (pats : List (List Tok)) (cs : List Char) : Bool :=
  pats.any (fun p => fullMatch p cs)

/-- Global replace-with-empty (JS `out.replace(re, '')` with `/g`) with
explicit fuel: scan left to right, deleting each leftmost match and
continuing after it.  Each step strictly shrinks the input, so with the fuel
chosen by `stripPat` the `0` case is unreachable. -/
def stripPatF : Nat → List Tok → List Char → List Char
  | 0, _, cs => cs
  | _ + 1, _, [] => []
  | fuel + 1, pat, c :: cs' =>
    match matchLen pat (c :: cs') with
    | some (k + 1) => stripPatF fuel pat (cs'.drop k)
    | _ => c :: stripPatF fuel pat cs'

/-- Stripping with sufficient fuel. -/
def stripPat (pat : List Tok) (cs : List Char) : List Char :=
  stripPatF (cs.length + 1) pat cs

/-- Does a word of the list occur here with `\b` boundaries on both sides? -/
def wordAt (w : List Char) (prev : Option Char) (cs : List Char) : Bool :=
  (match prev with | none => true | some c => !isWordChar c) &&
  w.isPrefixOf cs &&
  (match cs.drop w.length with | [] => true | c :: _ => !isWordChar c)

/-- Scan for a `\b`-delimited occurrence of any of the words (JS
`/\b(w1|w2|...)\b/.test`), tracking the previous character. -/
def containsWordFrom (ws : List (List Char)) (prev : Option Char) :
    List Char → Bool
  | [] => ws.any (fun w => wordAt w prev [])
  | c :: cs' =>
    ws.any (fun w => wordAt w prev (c :: cs')) || containsWordFrom ws (some c) cs'

/-- Plain substring containment (unanchored literal regex). -/
def containsSub (w : List Char) : List Char → Bool
  | [] => w.isPrefixOf []
  | c :: cs' => w.isPrefixOf (c :: cs') || containsSub w cs'

/-! ## Normalization (lines 240, 250, 255, 262, 270, 303, 326, 342 of `server.js`) -/

/-- Character-level NFKC normalization, `String.normalize('NFKC')`.  Modelled
as the identity map: NFKC is idempotent, every character the classifier
patterns discriminate on is NFKC-fixed, and no claim depends on a nontrivial
compatibility mapping. -/
def nfkcChar (c : Char) : Char := c

/-- `String.prototype.normalize('NFKC')`, character-wise. -/
def nfkcStr (cs : List Char) : List Char := cs.map nfkcChar

/-- `String.prototype.trim()`: strip whitespace from both ends. -/
def trimStr (cs : List Char) : List Char :=
  List.rdropWhile isWs (List.dropWhile isWs cs)

/-- `String(x).normalize('NFKC').trim()`. -/
def normTrim (s : String) : String := ⟨trimStr (nfkcStr s.data)⟩

/-- `String.prototype.toLowerCase()`, character-wise. -/
def lowerStr (s : String) : String := ⟨s.data.map Char.toLower⟩

/-- `String(x).normalize('NFKC').trim().toLowerCase()`. -/
def ntl (s : String) : String := lowerStr (normTrim s)

/-! ## Data model: jobs -/

/-- The part of a Job document the webhook flow reads. -/
structure Job where
  language : String
  questions : List String
deriving DecidableEq, Repr

/-- Token builders: literal, optional literal, alternation of literals. -/
def wL (s : String) : Tok := .lit s.data

/-- Optional literal token (JS `x?`). -/
def oL (s : String) : Tok := .optLit s.data

/-- Alternation-of-literals token (JS `(a|b|...)`). -/
def aL (ss : List String) : Tok := .altLit (ss.map String.data)

/-- JS `\s*`. -/
def ws0 : Tok := .starP isWs

/-- JS `\s+`. -/
def ws1 : Tok := .plusP isWs

/-- JS `.*` (no line terminators). -/
def dotS : Tok := .starP notNl

/-- Optional apostrophe token (JS `'?`). -/
def aposTok : Tok := .optLit [apos]

/-! ## Classifier (lines 238–348 of `server.js`) -/

/-- Arabic readiness alternatives of `isStartMessage` (line 242). -/
def arReady : List (List Tok) := [
  [wL "جاهز"], [wL "جاهزه"], [wL "جاهزة"], [wL "جاهزين"], [wL "حاهز"],
  [wL "يلا"], [wL "يلا", ws0, wL "نبدأ"], [wL "يلا", ws0, wL "نکمل"],
  [wL "يلا", ws0, wL "نكمل"], [wL "تمام"], [wL "اوكي"], [wL "أوكي"],
  [wL "اوكيه"], [wL "اوكي", ws0, wL "نبدأ"], [wL "تمام", ws0, wL "نبدأ"],
  [wL "خلنا", ws0, wL "نبدأ"], [wL "خلّنا", ws0, wL "نبدأ"], [wL "لنبدأ"],
  [wL "نبدأ"], [wL "نبدأ؟"], [wL "ابدا"], [wL "ابدأ"], [wL "بدا"], [wL "بدأ"],
  [wL "انطلق"], [wL "خلاص", ws0, wL "نبدأ"], [wL "تمام", ws0, wL "نكمل"],
  [wL "نكمّل"], [wL "نكمل"]]

/-- English readiness alternatives of `isStartMessage` (line 244). -/
def enReady : List (List Tok) := [
  [wL "ready"],
  [wL "let", ws0, aposTok, wL "s", ws0, wL "start"],
  [wL "lets", ws0, wL "start"],
  [wL "okay", ws0, wL "let", aposTok, wL "s", ws0, wL "begin"],
  [wL "ok", ws0, wL "begin"], [wL "ok", ws0, wL "start"],
  [wL "begin"], [wL "start", .nwb],
  [wL "go", ws0, wL "ahead"],
  [wL "let", aposTok, wL "s", ws0, wL "go"],
  [wL "sounds", ws0, wL "good"],
  [wL "we", ws0, wL "can", ws0, wL "start"],
  [wL "proceed"], [wL "continue"]]

/-- `isStartMessage(job, message)` (lines 238–247).  The job argument is
ignored by the source: both the Arabic and the English readiness patterns
are always tested, regardless of `job.language`. -/
def isStartMessage (job : Job) (message : String) : Bool :=
  let m := ntl message
  testAny arReady m.data || testAny enReady m.data

/-- Alternatives of the `isClarification` regex (line 251). -/
def clarifyPats : List (List Tok) := [
  [wL "ما", ws0, wL "فهمت"], [wL "وضح"], [wL "توضيح"], [wL "اشرح"], [wL "شرح"],
  [wL "explain"],
  [wL "what", ws1, wL "do", ws1, wL "you", ws1, wL "mean"],
  [wL "i", ws1, wL "don", aposTok, wL "t", ws1, wL "understand"],
  [wL "not", ws1, wL "understand"]]

/-- `isClarification(message)` (lines 249–252). -/
def isClarification (message : String) : Bool :=
  testAny clarifyPats (ntl message).data

/-- English interrogative words of `isUserQuestion` (line 258). -/
def engQWords : List (List Char) :=
  ["what", "why", "how", "when", "where", "which", "who"].map String.data

/-- Arabic interrogative words of `isUserQuestion` (line 258). -/
def arQWords : List (List Char) :=
  ["كيف", "لماذا", "متى", "أين", "اين", "كم"].map String.data

/-- `isUserQuestion(message)` (lines 254–259): ends in `?`, or contains an
interrogative word. -/
def isUserQuestion (message : String) : Bool :=
  let m := normTrim message
  if m.data.getLast? = some '?' then true
  else
    let lower := lowerStr m
    containsWordFrom engQWords none lower.data ||
      arQWords.any (fun w => containsSub w lower.data)

/-- Anchored confirmation patterns of `isConfirmationOnly` (lines 273–297). -/
def confirmPats : List (List Tok) := [
  [wL "ت", .plusP (fun c => c = 'م')],
  [wL "تمام"],
  [wL "ا", oL "و", wL "كي"],
  [wL "أوكي"],
  [wL "اوكي", ws0, wL "نبدأ"],
  [wL "تمام", ws0, wL "نبدأ"],
  [wL "يلا"],
  [wL "يلا", ws0, wL "نبدأ"],
  [wL "جاهز"], [wL "جاهزه"], [wL "جاهزة"], [wL "حاضر"],
  [wL "تمام", ws0, wL "تمام"],
  [wL "go", ws0, wL "ahead"],
  [wL "ok", oL "ay"],
  [aL ["sounds", "looks"], ws0, wL "good"],
  [wL "let", aposTok, wL "s", ws0, wL "go"],
  [wL "نبدأ؟"],
  [wL "نكمل"],
  [wL "تمام", ws0, wL "نكمل"],
  [wL "يلا", ws0, wL "نكمل"],
  [wL "continue"],
  [wL "proceed"]]

/-- `isConfirmationOnly(message)` (lines 269–299). -/
def isConfirmationOnly (message : String) : Bool :=
  let m := ntl message
  if m = "" then false else fullAny confirmPats m.data

/-- Search patterns of `isMetaNonAnswer` (lines 305–320); nested optional
groups are expanded into top-level alternatives. -/
def metaPats : List (List Tok) := [
  [aL ["أتوقع", "اتوقع", "أعتقد", "اعتقد"], ws1, dotS, aL ["جاوبت", "أجبت"],
    ws1, aL ["كل", "كافة"], ws1, aL ["الأسئلة", "الاسئلة", "اسئلة"]],
  [aL ["جاوبت", "أجبت"], ws1, aL ["كل", "كافة"], ws1,
    aL ["الأسئلة", "الاسئلة", "اسئلة"]],
  [wL "هل", ws0, aL ["هناك", "في"], ws0, wL "سؤال", ws0, aL ["آخر", "اخر"],
    oL "?"],
  [wL "خلصنا"], [wL "خلاص"], [wL "انتهينا"], [wL "انتهيت"],
  [wL "ما", ws0, wL "عندي", ws0, aL ["شي", "شيء", "إضافة", "اضافة"]],
  [wL "هذا", ws0, wL "كل", ws0, wL "شي", oL "ء"],
  [aL ["أظن", "اظن"], ws1, wL "كفاية"],
  [wL "i", ws0, wL "think", ws0, wL "i", ws0, wL "answered", ws0,
    aL ["everything", "all"]],
  [wL "i", ws0, wL "think", ws0, wL "i", aposTok, wL "ve", ws0, wL "answered",
    ws0, aL ["everything", "all"]],
  [wL "i", ws0, wL "think", ws0, wL "i", ws0, wL "have", ws0, wL "answered",
    ws0, aL ["everything", "all"]],
  [wL "did", ws0, aL ["i", "we"], ws0, wL "answer", ws0,
    aL ["everything", "all"]],
  [wL "anything", ws0, wL "else", oL "?"],
  [wL "any", ws0, wL "other", ws0, wL "question", oL "?"],
  [wL "any", ws0, wL "other", ws0, wL "questions", oL "?"],
  [wL "that", aposTok, wL "s", ws0, aL ["all", "it"]],
  [wL "we", ws0, wL "are", ws0, wL "done"],
  [wL "i", aposTok, wL "m", ws0, wL "done"],
  [wL "i", ws0, wL "am", ws0, wL "done"],
  [wL "no", ws0, wL "further", ws0, wL "questions"]]

/-- `isMetaNonAnswer(message)` (lines 302–322). -/
def isMetaNonAnswer (message : String) : Bool :=
  let m := ntl message
  if m = "" then false else testAny metaPats m.data

/-- The `{language:'en'}` dummy job of line 264. -/
def jobEn : Job := ⟨"en", []⟩

/-- `isProbablyAnswer(message)` (lines 261–266). -/
def isProbablyAnswer (message : String) : Bool :=
  let m := normTrim message
  if m = "" then false
  else !(isClarification m || isUserQuestion m || isStartMessage jobEn m ||
        isMetaNonAnswer m)

/-- `isSubstantiveAnswer(message)` (lines 325–339). -/
def isSubstantiveAnswer (message : String) : Bool :=
  let m := normTrim message
  if m = "" then false
  else if isConfirmationOnly m then false
  else if isClarification m || isUserQuestion m then false
  else if isMetaNonAnswer m then false
  else if 6 ≤ m.data.length then true
  else if m.data.any isWs then true
  else if m.data.any (fun c =>
    c = '،' || c = ',' || c = '.' || c = '؛' || c = '-' || c = '•') then true
  else m.data.any Char.isDigit

/-- `isValidAnswerContent(message)` (lines 341–348). -/
def isValidAnswerContent (message : String) : Bool :=
  let m := normTrim message
  if m = "" then false
  else if isConfirmationOnly m then false
  else if isClarification m || isUserQuestion m then false
  else if isMetaNonAnswer m then false
  else isSubstantiveAnswer m

/-- The `badPhrases` patterns of `sanitizeAssistantReply` (lines 353–368). -/
def badPhrases : List (List Tok) := [
  [wL "i", ws1, wL "can", ws1, wL "write", ws1, wL "a", ws1, wL "better",
    ws1, wL "answer"],
  [wL "let", ws1, wL "me", ws1, wL "craft", ws1, wL "the", ws1, wL "answer"],
  [wL "i", ws1, wL "can", ws1, wL "craft", ws1, dotS, wL "answer"],
  [wL "i", ws1, wL "will", ws1, wL "write", ws1, wL "the", ws1, wL "answer"],
  [wL "س", oL "أ", wL "كتب لك الإجابة"],
  [wL "س", oL "أ", wL "صيغ لك الإجابة"],
  [wL "يمكنني صياغة الإجابة"],
  [wL "أستطيع كتابة إجابة"],
  [wL "خليني أصيغ لك"],
  [wL "هل", ws0, wL "هناك", ws0, wL "سؤال", ws0, wL "آخر", oL "?"],
  [wL "any", ws0, wL "other", ws0, wL "question", oL "?"],
  [wL "any", ws0, wL "other", ws0, wL "questions", oL "?"],
  [wL "anything", ws0, wL "else", oL "?"]]

/-- `sanitizeAssistantReply(text, lang)` (lines 351–375): delete every match
of every bad phrase, then trim.  The `lang` argument is unused by the
source. -/
def sanitizeAssistantReply (text : String) (lang : String) : String :=
  ⟨trimStr (badPhrases.foldl (fun out re => stripPat re out) text.data)⟩

/-! ## Data model: sessions, delegate results, submissions -/

/-- One slot of the answer ledger (`answers: [{question, answer}]`). -/
structure AnswerSlot where
  question : String
  answer : String
deriving DecidableEq, Repr

/-- The part of a Session document the webhook flow reads and writes.
`completed` models `completedAt !== null`. -/
structure Sess where
  currentIndex : Nat
  answers : List AnswerSlot
  processedMessageSids : List String
  interviewStarted : Bool
  followUpCounts : List Nat
  needsReview : List Nat
  completed : Bool
deriving DecidableEq, Repr

/-- The canonical delegate result (lines 398–403 / 406). -/
structure Guidance where
  assistant_reply : String
  normalized_answer : Option String
  action : String
  follow_up_question : String
deriving DecidableEq, Repr

/-- Fields of a parsed upstream JSON object for `converseOnAnswer`; `none`
models an absent (or `undefined`) field. -/
structure GuidanceObj where
  assistant_reply : Option String
  normalized_answer : Option String
  action : Option String
  follow_up_question : Option String
deriving DecidableEq, Repr

/-- The outcome of the delegate's single upstream request. -/
inductive ConverseUpstream where
  /-- `OPENAI_API_KEY` unset (line 386) -/
  | noKey
  /-- network failure, or a brace-extraction whose `JSON.parse` throws
  (caught by the outer `catch`, lines 404–407) -/
  | failure
  /-- a reply was received; `none` models content with no parseable JSON and
  no brace-delimited object (`parsed = {}`, line 397) -/
  | payload (parsed : Option GuidanceObj)
deriving DecidableEq, Repr

/-- `converseOnAnswer` (lines 377–408), with the network call abstracted as
the upstream outcome.  On `noKey` the source returns an object without the
`follow_up_question` field; the webhook only reads that field through
`guidance?.follow_up_question ? … : ''`, so `undefined` is modelled as
`""`. -/
def converseOnAnswer (u : ConverseUpstream) : Guidance :=
  match u with
  | .noKey => ⟨"", none, "ask_again", ""⟩
  | .failure => ⟨"", none, "ask_again", ""⟩
  | .payload none => ⟨"", none, "ask_again", ""⟩
  | .payload (some o) =>
    { assistant_reply := o.assistant_reply.getD ""
      normalized_answer := o.normalized_answer
      action := match o.action with
        | none => "ask_again"
        | some a => if a = "" then "ask_again" else a
      follow_up_question := o.follow_up_question.getD "" }

/-! ## Scoring pipeline (lines 412–502 of `server.js`) -/

/-- The upstream-reported `score` field: absent, non-numeric
(`Number(·)` is `NaN`, or a non-finite value), or a finite number. -/
inductive UpScore where
  | missing
  | nonNumeric
  | num (q : ℚ)
deriving DecidableEq, Repr

/-- JS `Math.round`: half-up toward `+∞`. -/
def jsRound (q : ℚ) : ℤ := ⌊q + 1/2⌋

/-- Lines 455–457: `Math.round(Number(parsed.score ?? 0))`, then the
`Number.isFinite` guard, then the `[0,100]` clamp. -/
def clampScore : UpScore → ℤ
  | .missing => 0
  | .nonNumeric => 0
  | .num q =>
    let score := jsRound q
    if score < 0 then 0 else if 100 < score then 100 else score

/-- An upstream `strengths`/`weaknesses` field: an array, a scalar
(coerced through `String(·)`), or absent. -/
inductive JListVal where
  | arr (xs : List String)
  | strv (s : String)
  | missing
deriving DecidableEq, Repr

/-- Line 471–472: `Array.isArray(x) ? x : (x ? [String(x)] : [])`. -/
def jlist : JListVal → List String
  | .arr xs => xs
  | .strv s => if s = "" then [] else [s]
  | .missing => []

/-- A parsed upstream evaluation reply.  `decision` is carried to show the
post-processing never reads it. -/
structure EvalPayload where
  score : UpScore
  strengths : JListVal
  weaknesses : JListVal
  decision : Option String
  summary : Option String
deriving DecidableEq, Repr

/-- Outcome of the evaluation request: the `catch` path (missing key,
network failure, unparseable-and-throwing extraction) or a parsed reply. -/
inductive AnalyzeOutcome where
  | failure
  | ok (p : EvalPayload)
deriving DecidableEq, Repr

/-- The analysis value returned by `analyzeCandidate` (lines 469–475 / 478). -/
structure Analysis where
  score : ℤ
  strengths : List String
  weaknesses : List String
  decision : String
  summary : String
deriving DecidableEq, Repr

/-- The aligned, sanitized Q/A list of lines 415–419: answers are aligned by
index and non-valid content is replaced by the empty string. -/
def qaOf (job : Job) (answers : List AnswerSlot) : List AnswerSlot :=
  (List.range job.questions.length).map fun i =>
    let q := job.questions.getD i ""
    let a := (answers.getD i ⟨"", ""⟩).answer
    ⟨q, if isValidAnswerContent a then a else ""⟩

/-- `analyzeCandidate(job, answers)` (lines 412–480), with the LLM call
abstracted as the outcome.  The upstream `decision` field is never read:
the decision label is derived from the clamped score (lines 458–463) and
downgraded when any aligned answer is empty (lines 464–468). -/
def analyzeCandidate (job : Job) (answers : List AnswerSlot)
    (outcome : AnalyzeOutcome) : Analysis :=
  match outcome with
  | .failure =>
    ⟨0, [], [], "review", "AI analysis failed; manual review required."⟩
  | .ok p =>
    let qa := qaOf job answers
    let score := clampScore p.score
    let decision :=
      if 85 ≤ score then "strong"
      else if 75 ≤ score then "recommended"
      else if 60 ≤ score then "review"
      else "weak"
    let anyMissing := qa.any fun x => x.answer = "" || (trimStr x.answer.data).isEmpty
    let decision :=
      if anyMissing && (decision = "strong" || decision = "recommended") then "review"
      else decision
    ⟨score, jlist p.strengths, jlist p.weaknesses, decision, p.summary.getD ""⟩

/-- The persisted Submission record (lines 488–498), restricted to the
fields the claims speak about. -/
structure Submission where
  answers : List AnswerSlot
  aiScore : ℤ
  aiStrengths : List String
  aiWeaknesses : List String
  aiDecision : String
  aiSummary : String
deriving DecidableEq, Repr

/-- `finalizeAndNotify(job, sessionDoc)` (lines 482–502), in DB mode:
analyze, then create exactly one Submission from the analysis. -/
def finalizeAndNotify (job : Job) (sessionDoc : Sess)
    (outcome : AnalyzeOutcome) : Analysis × Submission :=
  let analysis := analyzeCandidate job sessionDoc.answers outcome
  (analysis,
    { answers := sessionDoc.answers.map fun a => ⟨a.question, a.answer⟩
      aiScore := analysis.score
      aiStrengths := analysis.strengths
      aiWeaknesses := analysis.weaknesses
      aiDecision := if analysis.decision = "" then "review" else analysis.decision
      aiSummary := analysis.summary })

/-! ## The `/webhook` session state machine (lines 505–715 of `server.js`)

The handler is modelled in DB mode (`dbReady = true`) as a single-turn step
function over the *persisted* session document.  A branch that returns
without calling `sessionDoc.save()` leaves the persisted document unchanged
(Mongoose in-memory mutations are lost); branches that save persist the
mutated draft.  Outbound messages are modelled structurally: locale
templates (`locales/*.json`, not part of the source tree) are abstracted as
the constructors `question`/`welcome`/`noQuestions`/`closing`. -/

/-- An outbound WhatsApp message of one turn. -/
inductive OutMsg where
  /-- `buildWelcomeMessage(job)` -/
  | welcome
  /-- `t(lang,'whatsapp.no_questions')` -/
  | noQuestions
  /-- a plain assistant text (a sanitized reply, possibly joined with a
  follow-up by `'\n'`) -/
  | text (s : String)
  /-- `t(lang,'whatsapp.question_prefix', {current, total, question})` -/
  | question (current total : Nat) (q : String)
  /-- `buildFinalMessage(job)`, prefixed by the joined assistant reply when
  the source joins the two into one send (line 631); the plain closing
  message alone is `closing ""` -/
  | closing (reply : String)
deriving DecidableEq, Repr

/-- `[a, b].filter(Boolean).join('\n')`. -/
def joinParts (parts : List String) : String :=
  String.intercalate "\n" (parts.filter fun s => s ≠ "")

/-- `MAX_FOLLOW_UPS` (line 23): `Number(process.env.MAX_FOLLOW_UPS || 2)`;
the default is 2. -/
def MAX_FOLLOW_UPS : Nat := 2

/-- Read of a JS number-array entry: `(arr[i] || 0)`. -/
def getCount (l : List Nat) (i : Nat) : Nat := l.getD i 0

/-- JS array index assignment `arr[i] = v`: pad the array (holes read back
as `0` through `|| 0`) and set slot `i`. -/
def setCount (l : List Nat) (i v : Nat) : List Nat :=
  (l ++ List.replicate (i + 1 - l.length) 0).set i v

/-- The ledger write of lines 619–625 (and its duplicate at 650–656): push
at the end, pad-then-push below the index, and never overwrite an existing
slot. -/
def writeAnswer (answers : List AnswerSlot) (idx : Nat) (q a : String) :
    List AnswerSlot :=
  if answers.length = idx then answers ++ [⟨q, a⟩]
  else if answers.length < idx then
    (answers ++ List.replicate (idx - answers.length) ⟨"", ""⟩) ++ [⟨q, a⟩]
  else answers

/-- The result of one webhook turn: the persisted session document, the
outbound messages in order, and the Submission records created. -/
structure StepOut where
  persisted : Option Sess
  replies : List OutMsg
  submissions : List Submission
deriving DecidableEq, Repr

/-- The accepted-answer path (lines 619–645, duplicated verbatim at
650–675): write the ledger slot, advance, and either finalize (last
question: set `completedAt`, save, create the submission, send the joined
reply + closing message) or save and send the reply and the next
question. -/
def acceptAnswer (job : Job) (s1 : Sess) (idx : Nat) (q msg reply : String)
    (ev : AnalyzeOutcome) : StepOut :=
  let answers' := writeAnswer s1.answers idx q msg
  let isLast := idx = job.questions.length - 1
  let s2 := { s1 with answers := answers', currentIndex := idx + 1 }
  if isLast then
    let s3 := { s2 with completed := true }
    let sub := (finalizeAndNotify job s3 ev).2
    ⟨some s3, [.closing reply], [sub]⟩
  else
    ⟨some s2,
      (if reply ≠ "" then [.text reply] else []) ++
        (if s2.currentIndex < job.questions.length then
          [.question (s2.currentIndex + 1) job.questions.length
            (job.questions.getD s2.currentIndex "")]
        else []),
      []⟩

/-- The follow-up counting path (lines 594–603 for the user-question branch
with `reAsk = false`, lines 678–695 for the delegate branch with
`reAsk = (action = "clarify")`): increment the counter for the index, re-ask
the full question when the action is `clarify`, and on reaching
`MAX_FOLLOW_UPS` mark the index needs-review and advance; then save. -/
def escalate (W : Nat) (job : Job) (s1 : Sess) (idx : Nat)
    (replies0 : List OutMsg) (reAsk : Bool) (q : String) : StepOut :=
  let counts := setCount s1.followUpCounts idx (getCount s1.followUpCounts idx + 1)
  let reached := W ≤ getCount counts idx
  let s2 := { s1 with followUpCounts := counts }
  let s3 :=
    if reached then
      { s2 with
        needsReview :=
          if s2.needsReview.contains idx then s2.needsReview
          else s2.needsReview ++ [idx]
        currentIndex := idx + 1 }
    else s2
  ⟨some s3,
    replies0 ++ (if reAsk then [.question (idx + 1) job.questions.length q] else []),
    []⟩

/-- One turn of `app.post('/webhook')` (lines 505–715) in DB mode, over the
persisted session for the sender: `body` is the raw `req.body.Body`, `sid?`
the `MessageSid`, `g` the delegate result for this turn (used only on the
branches that call `converseOnAnswer`), and `ev` the evaluation outcome
(used only when this turn finalizes the session). -/
def webhookStep (W : Nat) (job : Job) (sess? : Option Sess) (body : String)
    (sid? : Option String) (g : Guidance) (ev : AnalyzeOutcome) : StepOut :=
  let message : String := ⟨trimStr body.data⟩
  match sess? with
  | none =>
    if !isStartMessage job (lowerStr ⟨nfkcStr message.data⟩) then
      ⟨none, [.welcome], []⟩
    else
      let s : Sess := ⟨0, [], [], true, [], [], false⟩
      if 0 < job.questions.length then
        ⟨some s, [.question 1 job.questions.length (job.questions.getD 0 "")], []⟩
      else
        ⟨some s, [.noQuestions], []⟩
  | some s0 =>
    if (match sid? with
        | some sid => s0.processedMessageSids.contains sid
        | none => false) then
      ⟨some s0, [], []⟩
    else
    let s1 := match sid? with
      | some sid =>
        { s0 with processedMessageSids := s0.processedMessageSids ++ [sid] }
      | none => s0
    let idx := s1.currentIndex
    if idx < job.questions.length then
      let q := job.questions.getD idx ""
      if !s1.interviewStarted && isStartMessage job message then
        ⟨some { s1 with interviewStarted := true },
          [.question 1 job.questions.length q], []⟩
      else if isConfirmationOnly message then
        ⟨some s1, [], []⟩
      else if isClarification message then
        let reply := sanitizeAssistantReply g.assistant_reply job.language
        ⟨some s0,
          (if reply ≠ "" then [.text reply] else []) ++
            [.question (idx + 1) job.questions.length q],
          []⟩
      else if isUserQuestion message && !isProbablyAnswer message then
        let reply := sanitizeAssistantReply g.assistant_reply job.language
        let fu :=
          if g.follow_up_question ≠ "" then
            sanitizeAssistantReply g.follow_up_question job.language
          else ""
        let out := joinParts [reply, fu]
        escalate W job s1 idx (if out ≠ "" then [.text out] else []) false q
      else
        let action := if g.action = "" then "ask_again" else g.action
        let reply := sanitizeAssistantReply g.assistant_reply job.language
        if action = "answer" then
          if !isValidAnswerContent message then
            ⟨some s0,
              (if reply ≠ "" then [.text reply] else []) ++
                [.question (idx + 1) job.questions.length q],
              []⟩
          else
            acceptAnswer job s1 idx q message reply ev
        else if (action = "ask_again" || action = "guide") &&
            isValidAnswerContent message then
          acceptAnswer job s1 idx q message reply ev
        else
          let fu :=
            if g.follow_up_question ≠ "" then
              sanitizeAssistantReply g.follow_up_question job.language
            else ""
          let out := joinParts [reply, fu]
          escalate W job s1 idx (if out ≠ "" then [.text out] else [])
            (action = "clarify") q
    else
      if s1.currentIndex < job.questions.length then
        ⟨some s0,
          [.question (s1.currentIndex + 1) job.questions.length
            (job.questions.getD s1.currentIndex "")],
          []⟩
      else if !s1.completed then
        let s2 := { s1 with completed := true }
        let sub := (finalizeAndNotify job s2 ev).2
        ⟨some s2, [.closing ""], [sub]⟩
      else
        ⟨some s0, [], []⟩

/-! ## Auxiliary definitions for the claims -/

/-- Whether an outbound message is a full question prompt. -/
def isQuestionMsg : OutMsg → Bool
  | .question _ _ _ => true
  | _ => false

/-- Decision thresholds and missing-answer downgrade as the specification
words them (refinement reference for the claims about `analyzeCandidate`):
score ≥ 85 strong, ≥ 75 recommended, ≥ 60 review, else weak; any empty
ledger slot downgrades strong/recommended to review. -/
def specDecision (score : ℤ) (anyMissing : Bool) : String :=
  let base :=
    if 85 ≤ score then "strong"
    else if 75 ≤ score then "recommended"
    else if 60 ≤ score then "review"
    else "weak"
  if anyMissing && (base = "strong" || base = "recommended") then "review" else base

/-- The missing-answer test of line 465, over the aligned Q/A list. -/
def ledgerMissing (job : Job) (answers : List AnswerSlot) : Bool :=
  (qaOf job answers).any fun x => x.answer = "" || (trimStr x.answer.data).isEmpty

/-- One follow-up-resolved webhook turn without a delivery id (the persisted
result of the step; for an existing session the step always persists some
document). -/
def ambigTurn (W : Nat) (job : Job) (body : String) (g : Guidance)
    (s : Sess) : Sess :=
  ((webhookStep W job (some s) body none g .failure).persisted).getD s

/-- `n` consecutive such turns. -/
def ambigIter (W : Nat) (job : Job) (body : String) (g : Guidance) :
    Nat → Sess → Sess
  | 0, s => s
  | n + 1, s => ambigTurn W job body g (ambigIter W job body g n s)

/-- Conditions under which a turn is resolved as ask_again/guide for the
current question: not confirmation-only, not a clarification request, and
either routed by the user-question heuristic (lines 587–604) or by the
delegate default branch with action ask_again/guide and a message that
fails the validity override (lines 646–696). -/
def ambigTurnConds (body : String) (g : Guidance) : Prop :=
  isConfirmationOnly (normTrim body) = false ∧
  isClarification (normTrim body) = false ∧
  (((isUserQuestion (normTrim body) && !isProbablyAnswer (normTrim body)) = true) ∨
    ((isUserQuestion (normTrim body) && !isProbablyAnswer (normTrim body)) = false ∧
      (g.action = "ask_again" ∨ g.action = "guide") ∧
      isValidAnswerContent (normTrim body) = false))

/-- A three-question demo job for concrete evaluations. -/
def jobDemo : Job := ⟨"en", ["q0", "q1", "q2"]⟩

/-- A fresh started session at question 0. -/
def sessFresh : Sess := ⟨0, [], [], true, [], [], false⟩

/-- Delegate results used at concrete inputs. -/
def gAskAgain : Guidance := ⟨"", none, "ask_again", ""⟩

/-- A delegate result with action `clarify`. -/
def gClarify : Guidance := ⟨"", none, "clarify", ""⟩

/-- A delegate result with action `answer`. -/
def gAnswer : Guidance := ⟨"", none, "answer", ""⟩

/-- First processing of the clarification message `"explain"` with delivery
id `"SM1"` against the fresh session. -/
def clarTurn1 : StepOut :=
  webhookStep MAX_FOLLOW_UPS jobDemo (some sessFresh) "explain" (some "SM1")
    gAskAgain .failure

/-- Redelivery of the same message with the same delivery id against the
state that the first processing persisted. -/
def clarTurn2 : StepOut :=
  webhookStep MAX_FOLLOW_UPS jobDemo (some (clarTurn1.persisted.getD sessFresh))
    "explain" (some "SM1") gAskAgain .failure

/-! ## Helper lemmas: normalization is idempotent -/

theorem nfkcStr_id (cs : List Char) : nfkcStr cs = cs := by
  have h : nfkcChar = id := rfl
  rw [nfkcStr, h, List.map_id]

theorem head_trimStr_not_ws (cs : List Char) (a : Char) (t : List Char)
    (h : trimStr cs = a :: t) : isWs a = false := by
  have hpre := List.rdropWhile_prefix isWs (List.dropWhile isWs cs)
  rw [trimStr] at h
  rw [h] at hpre
  obtain ⟨r, hr⟩ := hpre
  have hcs : List.dropWhile isWs cs = a :: (t ++ r) := by
    rw [← hr]; simp
  have hd := List.dropWhile_idempotent isWs cs
  rw [hcs] at hd
  by_contra hws
  simp only [Bool.not_eq_false] at hws
  rw [List.dropWhile_cons] at hd
  simp only [hws, if_true] at hd
  have hlen := congrArg List.length hd
  have hle := (List.dropWhile_sublist isWs (l := t ++ r)).length_le
  simp only [List.length_cons] at hlen
  omega

theorem dropWhile_trimStr (cs : List Char) :
    List.dropWhile isWs (trimStr cs) = trimStr cs := by
  rcases h : trimStr cs with _ | ⟨a, t⟩
  · simp
  · rw [List.dropWhile_cons, head_trimStr_not_ws cs a t h]
    simp

theorem trimStr_idem (cs : List Char) : trimStr (trimStr cs) = trimStr cs := by
  have e : ∀ l, trimStr l = List.rdropWhile isWs (List.dropWhile isWs l) :=
    fun _ => rfl
  rw [e (trimStr cs), dropWhile_trimStr, e cs, List.rdropWhile_idempotent]

theorem normTrim_idem (s : String) : normTrim (normTrim s) = normTrim s := by
  simp only [normTrim, nfkcStr_id]
  exact congrArg String.mk (trimStr_idem _)

theorem trimBody_eq (body : String) :
    (⟨trimStr body.data⟩ : String) = normTrim body := by
  simp only [normTrim, nfkcStr_id]

theorem ntl_normTrim (s : String) : ntl (normTrim s) = ntl s := by
  simp only [ntl, normTrim_idem]

theorem isConfirmationOnly_normTrim (s : String) :
    isConfirmationOnly (normTrim s) = isConfirmationOnly s := by
  simp only [isConfirmationOnly, ntl_normTrim]

theorem isClarification_normTrim (s : String) :
    isClarification (normTrim s) = isClarification s := by
  simp only [isClarification, ntl_normTrim]

theorem isUserQuestion_normTrim (s : String) :
    isUserQuestion (normTrim s) = isUserQuestion s := by
  simp only [isUserQuestion, normTrim_idem]

theorem isStartMessage_normTrim (job : Job) (s : String) :
    isStartMessage job (normTrim s) = isStartMessage job s := by
  simp only [isStartMessage, ntl_normTrim]

theorem isMetaNonAnswer_normTrim (s : String) :
    isMetaNonAnswer (normTrim s) = isMetaNonAnswer s := by
  simp only [isMetaNonAnswer, ntl_normTrim]

theorem isProbablyAnswer_normTrim (s : String) :
    isProbablyAnswer (normTrim s) = isProbablyAnswer s := by
  simp only [isProbablyAnswer, normTrim_idem, isClarification_normTrim,
    isUserQuestion_normTrim, isStartMessage_normTrim, isMetaNonAnswer_normTrim]

theorem isValidAnswerContent_normTrim (s : String) :
    isValidAnswerContent (normTrim s) = isValidAnswerContent s := by
  simp only [isValidAnswerContent, normTrim_idem]

/-! ## Claim C10 -/

/-- C10: for every message `m`, if `isUserQuestion m` is true then
`isProbablyAnswer m` is false (`isProbablyAnswer` rejects any message
classified as a user question), so the webhook's routing guard
`isUserQuestion(message) && !isProbablyAnswer(message)` is equivalent to
`isUserQuestion(message)` alone. -/
theorem userQuestion_never_probablyAnswer (m : String) :
    (isUserQuestion m = true → isProbablyAnswer m = false) ∧
    ((isUserQuestion m && !isProbablyAnswer m) = isUserQuestion m) := by
  have key : isUserQuestion m = true → isProbablyAnswer m = false := by
    intro h
    rw [isProbablyAnswer]
    by_cases he : normTrim m = ""
    · exfalso
      rw [← isUserQuestion_normTrim, he] at h
      have : isUserQuestion "" = false := by decide
      rw [this] at h
      exact Bool.noConfusion h
    · rw [isUserQuestion_normTrim] at *
      simp only [he, if_false, isUserQuestion_normTrim, h]
      simp
  refine ⟨key, ?_⟩
  cases hq : isUserQuestion m
  · simp
  · rw [key hq]
    simp

/-- Witness for C10 at the concrete message `"what?"`. -/
theorem userQuestion_never_probablyAnswer_witness :
    isUserQuestion "what?" = true ∧ isProbablyAnswer "what?" = false :=
  ⟨by decide, (userQuestion_never_probablyAnswer "what?").1 (by decide)⟩

/-! ## Claim C6 -/

/-- C6: for any upstream-reported score value (including non-numeric or
absent), the persisted score equals `max(0, min(100, round(s)))`, with
non-numeric or absent scores clamping to 0; the persisted score is always
an integer in `[0,100]`, and the Submission's `aiScore` is exactly the
clamped score. -/
theorem score_clamp_spec :
    (∀ q : ℚ, clampScore (.num q) = max 0 (min 100 (jsRound q))) ∧
    clampScore .missing = 0 ∧ clampScore .nonNumeric = 0 ∧
    (∀ u : UpScore, 0 ≤ clampScore u ∧ clampScore u ≤ 100) ∧
    (∀ (job : Job) (s : Sess) (p : EvalPayload),
      (finalizeAndNotify job s (.ok p)).2.aiScore = clampScore p.score) := by
  refine ⟨?_, rfl, rfl, ?_, ?_⟩
  · intro q
    simp only [clampScore]
    split_ifs <;> omega
  · intro u
    cases u <;> simp only [clampScore] <;> try exact ⟨le_refl 0, by norm_num⟩
    split_ifs <;> omega
  · intro job s p
    rfl

/-! ## Claim C7 -/

/-- C7: the Conversational Delegate never propagates an exception (it is a
total function of the upstream outcome): on a missing key, a network
failure, or a payload with no extractable JSON object it returns the safe
default `action = ask_again` with empty reply text, and a parsed payload
whose `action` field is merely missing also defaults to `ask_again`. -/
theorem converse_safe_default :
    converseOnAnswer .noKey = ⟨"", none, "ask_again", ""⟩ ∧
    converseOnAnswer .failure = ⟨"", none, "ask_again", ""⟩ ∧
    converseOnAnswer (.payload none) = ⟨"", none, "ask_again", ""⟩ ∧
    (∀ o : GuidanceObj, o.action = none →
      (converseOnAnswer (.payload (some o))).action = "ask_again") := by
  refine ⟨rfl, rfl, rfl, ?_⟩
  intro o h
  simp [converseOnAnswer, h]

/-- Witness for C7 at a payload whose `action` field is missing. -/
theorem converse_safe_default_witness :
    (⟨some "noted", none, none, some "fu"⟩ : GuidanceObj).action = none ∧
    (converseOnAnswer (.payload (some ⟨some "noted", none, none,
      some "fu"⟩))).action = "ask_again" :=
  ⟨rfl, converse_safe_default.2.2.2 ⟨some "noted", none, none, some "fu"⟩ rfl⟩

/-! ## Claim C5 -/

/-- C5: the persisted decision label is a pure function of the clamped score
and the (sanitized) ledger emptiness and never of the upstream-provided
decision: it equals the fixed threshold mapping (≥85 strong, ≥75
recommended, ≥60 review, else weak) with the missing-answer downgrade, it
is unchanged when every payload field but the score changes, and a session
with an empty ledger slot never receives a strong/recommended decision —
on the failure path included. -/
theorem decision_pure_and_downgrade :
    (∀ (job : Job) (answers : List AnswerSlot) (p : EvalPayload),
      (analyzeCandidate job answers (.ok p)).decision =
        specDecision (clampScore p.score) (ledgerMissing job answers)) ∧
    (∀ (job : Job) (answers : List AnswerSlot) (p p' : EvalPayload),
      p.score = p'.score →
      (analyzeCandidate job answers (.ok p)).decision =
        (analyzeCandidate job answers (.ok p')).decision) ∧
    (∀ (job : Job) (answers : List AnswerSlot) (out : AnalyzeOutcome) (j : Nat),
      j < job.questions.length → (answers.getD j ⟨"", ""⟩).answer = "" →
      (analyzeCandidate job answers out).decision ≠ "strong" ∧
      (analyzeCandidate job answers out).decision ≠ "recommended") := by
  have h1 : ∀ (job : Job) (answers : List AnswerSlot) (p : EvalPayload),
      (analyzeCandidate job answers (.ok p)).decision =
        specDecision (clampScore p.score) (ledgerMissing job answers) :=
    fun _ _ _ => rfl
  refine ⟨h1, ?_, ?_⟩
  · intro job answers p p' hs
    rw [h1, h1, hs]
  · intro job answers out j hj hemp
    cases out with
    | failure =>
      have hd : (analyzeCandidate job answers .failure).decision = "review" := rfl
      rw [hd]
      exact ⟨by decide, by decide⟩
    | ok p =>
      have hmem : (⟨job.questions.getD j "", ""⟩ : AnswerSlot) ∈ qaOf job answers := by
        rw [qaOf]
        refine List.mem_map.mpr ⟨j, List.mem_range.mpr hj, ?_⟩
        dsimp only
        rw [hemp]
        simp
      have hmiss : ledgerMissing job answers = true := by
        rw [ledgerMissing, List.any_eq_true]
        exact ⟨_, hmem, by simp⟩
      rw [h1, hmiss]
      simp only [specDecision, Bool.true_and]
      split_ifs <;> simp_all

/-- Witness for C5: a two-question job with one answered slot; even with an
upstream score of 95 and an upstream decision `accept`, the persisted
decision is not `strong`. -/
theorem decision_pure_and_downgrade_witness :
    (0 : Nat) < jobDemo.questions.length ∧
    (([⟨"q0", ""⟩] : List AnswerSlot).getD 0 ⟨"", ""⟩).answer = "" ∧
    (analyzeCandidate jobDemo [⟨"q0", ""⟩]
      (.ok ⟨.num 95, .missing, .missing, some "accept", none⟩)).decision ≠
      "strong" :=
  ⟨by decide, rfl,
    (decision_pure_and_downgrade.2.2 jobDemo [⟨"q0", ""⟩]
      (.ok ⟨.num 95, .missing, .missing, some "accept", none⟩) 0 (by decide)
      rfl).1⟩

/-! ## Claim C9 -/

/-- C9: for every started session awaiting an answer, a confirmation-only
message is a no-op: no reply is emitted, the current index does not
advance, and the message is never written into the answer ledger. -/
theorem confirmation_noop (W : Nat) (job : Job) (s : Sess) (body : String)
    (sid? : Option String) (g : Guidance) (ev : AnalyzeOutcome)
    (hstart : s.interviewStarted = true)
    (hidx : s.currentIndex < job.questions.length)
    (hfresh : ∀ sid, sid? = some sid → s.processedMessageSids.contains sid = false)
    (hconf : isConfirmationOnly body = true) :
    ∃ s', (webhookStep W job (some s) body sid? g ev).persisted = some s' ∧
      (webhookStep W job (some s) body sid? g ev).replies = [] ∧
      s'.currentIndex = s.currentIndex ∧ s'.answers = s.answers := by
  have hc : isConfirmationOnly (⟨trimStr body.data⟩ : String) = true := by
    rw [trimBody_eq, isConfirmationOnly_normTrim]
    exact hconf
  rcases sid? with _ | sid
  · refine ⟨s, ?_, ?_, rfl, rfl⟩ <;>
      simp only [webhookStep, Bool.false_eq_true, if_false, hidx, if_true,
        hstart, Bool.not_true, Bool.false_and, hc]
  · have hf := hfresh sid rfl
    refine ⟨{ s with processedMessageSids := s.processedMessageSids ++ [sid] },
      ?_, ?_, rfl, rfl⟩ <;>
      simp only [webhookStep, hf, Bool.false_eq_true, if_false, hidx, if_true,
        hstart, Bool.not_true, Bool.false_and, hc]

/-- Witness for C9: the candidate sends `"ok"` while awaiting question 0. -/
theorem confirmation_noop_witness :
    isConfirmationOnly "ok" = true ∧
    ∃ s', (webhookStep 2 jobDemo (some sessFresh) "ok" (some "SID1") gAskAgain
        .failure).persisted = some s' ∧
      (webhookStep 2 jobDemo (some sessFresh) "ok" (some "SID1") gAskAgain
        .failure).replies = [] ∧
      s'.currentIndex = sessFresh.currentIndex ∧
      s'.answers = sessFresh.answers :=
  ⟨by decide,
    confirmation_noop 2 jobDemo sessFresh "ok" (some "SID1") gAskAgain .failure
      rfl (by decide)
      (by intro sid h; injection h with h; subst h; rfl) (by decide)⟩

/-! ## Helper lemmas for the escalation claims -/

theorem getCount_setCount (l : List Nat) (i v : Nat) :
    getCount (setCount l i v) i = v := by
  unfold getCount setCount
  have hlen : i < (l ++ List.replicate (i + 1 - l.length) 0).length := by
    simp only [List.length_append, List.length_replicate]
    omega
  simp [List.getD, List.getElem?_set_self hlen]

theorem escalate_spec (W : Nat) (job : Job) (s1 : Sess) (idx : Nat)
    (replies0 : List OutMsg) (reAsk : Bool) (q : String) :
    ∃ s', escalate W job s1 idx replies0 reAsk q =
      ⟨some s',
        replies0 ++
          (if reAsk then [.question (idx + 1) job.questions.length q] else []),
        []⟩ ∧
      getCount s'.followUpCounts idx = getCount s1.followUpCounts idx + 1 ∧
      s'.answers = s1.answers ∧
      s'.interviewStarted = s1.interviewStarted ∧
      s'.processedMessageSids = s1.processedMessageSids ∧
      s'.completed = s1.completed ∧
      (s'.currentIndex =
        if W ≤ getCount s1.followUpCounts idx + 1 then idx + 1
        else s1.currentIndex) ∧
      (s'.needsReview.contains idx =
        (decide (W ≤ getCount s1.followUpCounts idx + 1) ||
          s1.needsReview.contains idx)) := by
  unfold escalate
  dsimp only
  rw [getCount_setCount]
  by_cases hreach : W ≤ getCount s1.followUpCounts idx + 1
  · simp only [hreach, if_true, decide_eq_true_eq, if_pos hreach]
    refine ⟨_, rfl, getCount_setCount _ _ _, rfl, rfl, rfl, rfl, rfl, ?_⟩
    simp only [decide_eq_true hreach, Bool.true_or]
    by_cases hc : idx ∈ s1.needsReview
    · simp [hc]
    · simp [hc]
  · simp only [if_neg hreach]
    refine ⟨_, rfl, getCount_setCount _ _ _, rfl, rfl, rfl, rfl, rfl, ?_⟩
    simp [decide_eq_false hreach]

theorem clarify_partA (W : Nat) (job : Job) (s : Sess) (body : String)
    (sid? : Option String) (g : Guidance) (ev : AnalyzeOutcome)
    (hstart : s.interviewStarted = true)
    (hidx : s.currentIndex < job.questions.length)
    (hfresh : ∀ sid, sid? = some sid → s.processedMessageSids.contains sid = false)
    (hconf : isConfirmationOnly body = false)
    (hclar : isClarification body = true) :
    (webhookStep W job (some s) body sid? g ev).persisted = some s ∧
    ((webhookStep W job (some s) body sid? g ev).replies.countP isQuestionMsg) = 1 := by
  have hcT : isConfirmationOnly (⟨trimStr body.data⟩ : String) = false := by
    rw [trimBody_eq, isConfirmationOnly_normTrim]; exact hconf
  have hclT : isClarification (⟨trimStr body.data⟩ : String) = true := by
    rw [trimBody_eq, isClarification_normTrim]; exact hclar
  have heq : webhookStep W job (some s) body sid? g ev =
      ⟨some s,
        (if sanitizeAssistantReply g.assistant_reply job.language ≠ "" then
          [.text (sanitizeAssistantReply g.assistant_reply job.language)]
        else []) ++
          [.question (s.currentIndex + 1) job.questions.length
            (job.questions.getD s.currentIndex "")],
        []⟩ := by
    rcases sid? with _ | sid
    · simp only [webhookStep, Bool.false_eq_true, if_false, hidx, if_true,
        hstart, Bool.not_true, Bool.false_and, hcT, hclT]
    · have hf := hfresh sid rfl
      simp only [webhookStep, hf, Bool.false_eq_true, if_false, hidx, if_true,
        hstart, Bool.not_true, Bool.false_and, hcT, hclT]
  rw [heq]
  refine ⟨rfl, ?_⟩
  by_cases hr : sanitizeAssistantReply g.assistant_reply job.language = "" <;>
    simp [hr, isQuestionMsg]

theorem clarify_partB (W : Nat) (job : Job) (s : Sess) (body : String)
    (sid? : Option String) (g : Guidance) (ev : AnalyzeOutcome)
    (hstart : s.interviewStarted = true)
    (hidx : s.currentIndex < job.questions.length)
    (hfresh : ∀ sid, sid? = some sid → s.processedMessageSids.contains sid = false)
    (hconf : isConfirmationOnly body = false)
    (hclar : isClarification body = false)
    (hguard : (isUserQuestion body && !isProbablyAnswer body) = false)
    (hact : g.action = "clarify") :
    ∃ s', (webhookStep W job (some s) body sid? g ev).persisted = some s' ∧
      getCount s'.followUpCounts s.currentIndex =
        getCount s.followUpCounts s.currentIndex + 1 ∧
      ((webhookStep W job (some s) body sid? g ev).replies.countP isQuestionMsg) = 1 ∧
      (s'.currentIndex =
        if W ≤ getCount s.followUpCounts s.currentIndex + 1 then
          s.currentIndex + 1
        else s.currentIndex) ∧
      (s'.needsReview.contains s.currentIndex =
        (decide (W ≤ getCount s.followUpCounts s.currentIndex + 1) ||
          s.needsReview.contains s.currentIndex)) := by
  have hcT : isConfirmationOnly (⟨trimStr body.data⟩ : String) = false := by
    rw [trimBody_eq, isConfirmationOnly_normTrim]; exact hconf
  have hclT : isClarification (⟨trimStr body.data⟩ : String) = false := by
    rw [trimBody_eq, isClarification_normTrim]; exact hclar
  have hgT : (isUserQuestion (⟨trimStr body.data⟩ : String) &&
      !isProbablyAnswer (⟨trimStr body.data⟩ : String)) = false := by
    rw [trimBody_eq, isUserQuestion_normTrim, isProbablyAnswer_normTrim]
    exact hguard
  have hne1 : ("clarify" : String) ≠ "" := by decide
  have hne2 : ("clarify" : String) ≠ "answer" := by decide
  have hne3 : ("clarify" : String) ≠ "ask_again" := by decide
  have hne4 : ("clarify" : String) ≠ "guide" := by decide
  have heq : ∃ s1 : Sess, s1.followUpCounts = s.followUpCounts ∧
      s1.currentIndex = s.currentIndex ∧ s1.needsReview = s.needsReview ∧
      webhookStep W job (some s) body sid? g ev =
        escalate W job s1 s.currentIndex
          (if joinParts [sanitizeAssistantReply g.assistant_reply job.language,
            if g.follow_up_question ≠ "" then
              sanitizeAssistantReply g.follow_up_question job.language
            else ""] ≠ "" then
            [.text (joinParts [sanitizeAssistantReply g.assistant_reply job.language,
              if g.follow_up_question ≠ "" then
                sanitizeAssistantReply g.follow_up_question job.language
              else ""])]
          else []) true (job.questions.getD s.currentIndex "") := by
    rcases sid? with _ | sid
    · refine ⟨s, rfl, rfl, rfl, ?_⟩
      simp only [webhookStep, Bool.false_eq_true, if_false, hidx, if_true,
        hstart, Bool.not_true, Bool.false_and, hcT, hclT, hgT, hact, hne1,
        hne2, hne3, hne4, if_neg, ite_false, ite_true, decide_False,
        decide_True, Bool.or_self, Bool.false_and]
    · have hf := hfresh sid rfl
      refine ⟨{ s with processedMessageSids := s.processedMessageSids ++ [sid] },
        rfl, rfl, rfl, ?_⟩
      simp only [webhookStep, hf, Bool.false_eq_true, if_false, hidx, if_true,
        hstart, Bool.not_true, Bool.false_and, hcT, hclT, hgT, hact, hne1,
        hne2, hne3, hne4, if_neg, ite_false, ite_true, decide_False,
        decide_True, Bool.or_self, Bool.false_and]
  obtain ⟨s1, hfc, hci, hnr1, heq⟩ := heq
  obtain ⟨s', hesc, hcount, _, _, _, _, hcidx, hnr⟩ :=
    escalate_spec W job s1 s.currentIndex _ true
      (job.questions.getD s.currentIndex "")
  rw [heq, hesc]
  refine ⟨s', rfl, ?_, ?_, ?_, ?_⟩
  · rw [hcount, hfc]
  · by_cases hr : joinParts [sanitizeAssistantReply g.assistant_reply job.language,
      if g.follow_up_question ≠ "" then
        sanitizeAssistantReply g.follow_up_question job.language
      else ""] = "" <;>
      simp [hr, isQuestionMsg]
  · rw [hcidx, hfc, hci]
  · rw [hnr, hfc, hnr1]

/-! ## Claim C2 -/

/-- C2 (amended): a turn routed by the heuristic clarification classifier
re-emits the full question for the current index exactly once, leaves the
persisted session unchanged (so neither the index nor the escalation
counter changes); a turn routed by the Delegate returning `action = clarify`
also re-emits the full question exactly once, but **does** increment the
escalation counter for the index and, when the counter reaches the ceiling,
marks the index needs-review and advances the index. -/
theorem clarify_turns (W : Nat) (job : Job) (s : Sess) (body : String)
    (sid? : Option String) (g : Guidance) (ev : AnalyzeOutcome)
    (hstart : s.interviewStarted = true)
    (hidx : s.currentIndex < job.questions.length)
    (hfresh : ∀ sid, sid? = some sid → s.processedMessageSids.contains sid = false)
    (hconf : isConfirmationOnly body = false) :
    (isClarification body = true →
      (webhookStep W job (some s) body sid? g ev).persisted = some s ∧
      ((webhookStep W job (some s) body sid? g ev).replies.countP isQuestionMsg) = 1) ∧
    (isClarification body = false →
      (isUserQuestion body && !isProbablyAnswer body) = false →
      g.action = "clarify" →
      ∃ s', (webhookStep W job (some s) body sid? g ev).persisted = some s' ∧
        getCount s'.followUpCounts s.currentIndex =
          getCount s.followUpCounts s.currentIndex + 1 ∧
        ((webhookStep W job (some s) body sid? g ev).replies.countP isQuestionMsg) = 1 ∧
        (s'.currentIndex =
          if W ≤ getCount s.followUpCounts s.currentIndex + 1 then
            s.currentIndex + 1
          else s.currentIndex) ∧
        (s'.needsReview.contains s.currentIndex =
          (decide (W ≤ getCount s.followUpCounts s.currentIndex + 1) ||
            s.needsReview.contains s.currentIndex))) :=
  ⟨fun hclar =>
    clarify_partA W job s body sid? g ev hstart hidx hfresh hconf hclar,
   fun hclar hguard hact =>
    clarify_partB W job s body sid? g ev hstart hidx hfresh hconf hclar
      hguard hact⟩

/-- C2 counterexample: a Delegate-routed `clarify` turn at question 0 of a
fresh session increments the follow-up counter for index 0 from 0 to 1,
refuting "does not increment the escalation (follow-up) counter". -/
theorem clarify_increments_cx :
    getCount sessFresh.followUpCounts 0 = 0 ∧
    ((webhookStep 2 jobDemo (some sessFresh) "abc" (some "SMX") gClarify
        .failure).persisted.map fun s' => getCount s'.followUpCounts 0) =
      some 1 ∧
    ((webhookStep 2 jobDemo (some sessFresh) "abc" (some "SMX") gClarify
        .failure).replies.countP isQuestionMsg) = 1 := by
  decide

/-- Witness for C2 at the concrete messages `"explain"` (heuristic route)
and `"abc"` with a `clarify` delegate action (delegate route). -/
theorem clarify_turns_witness :
    ((webhookStep 2 jobDemo (some sessFresh) "explain" (some "SIDA") gAskAgain
        .failure).persisted = some sessFresh ∧
      ((webhookStep 2 jobDemo (some sessFresh) "explain" (some "SIDA")
        gAskAgain .failure).replies.countP isQuestionMsg) = 1) ∧
    (∃ s', (webhookStep 2 jobDemo (some sessFresh) "abc" (some "SIDB") gClarify
        .failure).persisted = some s' ∧
      getCount s'.followUpCounts sessFresh.currentIndex =
        getCount sessFresh.followUpCounts sessFresh.currentIndex + 1 ∧
      ((webhookStep 2 jobDemo (some sessFresh) "abc" (some "SIDB") gClarify
        .failure).replies.countP isQuestionMsg) = 1 ∧
      (s'.currentIndex =
        if 2 ≤ getCount sessFresh.followUpCounts sessFresh.currentIndex + 1 then
          sessFresh.currentIndex + 1
        else sessFresh.currentIndex) ∧
      (s'.needsReview.contains sessFresh.currentIndex =
        (decide (2 ≤ getCount sessFresh.followUpCounts sessFresh.currentIndex + 1) ||
          sessFresh.needsReview.contains sessFresh.currentIndex))) :=
  ⟨(clarify_turns 2 jobDemo sessFresh "explain" (some "SIDA") gAskAgain
      .failure rfl (by decide)
      (by intro sid h; injection h with h; subst h; rfl) (by decide)).1
      (by decide),
   (clarify_turns 2 jobDemo sessFresh "abc" (some "SIDB") gClarify
      .failure rfl (by decide)
      (by intro sid h; injection h with h; subst h; rfl) (by decide)).2
      (by decide) (by decide) rfl⟩

/-! ## Claim C1 -/

theorem ambigTurn_spec (W : Nat) (job : Job) (body : String) (g : Guidance)
    (s : Sess)
    (hidx : s.currentIndex < job.questions.length)
    (hstart : s.interviewStarted = true)
    (hc : ambigTurnConds body g) :
    getCount (ambigTurn W job body g s).followUpCounts s.currentIndex =
      getCount s.followUpCounts s.currentIndex + 1 ∧
    (ambigTurn W job body g s).interviewStarted = true ∧
    ((ambigTurn W job body g s).currentIndex =
      if W ≤ getCount s.followUpCounts s.currentIndex + 1 then
        s.currentIndex + 1
      else s.currentIndex) ∧
    ((ambigTurn W job body g s).needsReview.contains s.currentIndex =
      (decide (W ≤ getCount s.followUpCounts s.currentIndex + 1) ||
        s.needsReview.contains s.currentIndex)) := by
  obtain ⟨hconf, hclar, hroute⟩ := hc
  have hcT : isConfirmationOnly (⟨trimStr body.data⟩ : String) = false := by
    rw [trimBody_eq]; exact hconf
  have hclT : isClarification (⟨trimStr body.data⟩ : String) = false := by
    rw [trimBody_eq]; exact hclar
  have heq :
      webhookStep W job (some s) body none g .failure =
        escalate W job s s.currentIndex
          (if joinParts [sanitizeAssistantReply g.assistant_reply job.language,
            if g.follow_up_question ≠ "" then
              sanitizeAssistantReply g.follow_up_question job.language
            else ""] ≠ "" then
            [.text (joinParts [sanitizeAssistantReply g.assistant_reply
              job.language,
              if g.follow_up_question ≠ "" then
                sanitizeAssistantReply g.follow_up_question job.language
              else ""])]
          else []) false
          (job.questions.getD s.currentIndex "") := by
    rcases hroute with hg | ⟨hg, hact, hvalid⟩
    · have hgT : (isUserQuestion (⟨trimStr body.data⟩ : String) &&
          !isProbablyAnswer (⟨trimStr body.data⟩ : String)) = true := by
        rw [trimBody_eq]; exact hg
      simp only [webhookStep, Bool.false_eq_true, if_false, hidx, if_true,
        hstart, Bool.not_true, Bool.false_and, hcT, hclT, hgT, ite_true]
    · have hgT : (isUserQuestion (⟨trimStr body.data⟩ : String) &&
          !isProbablyAnswer (⟨trimStr body.data⟩ : String)) = false := by
        rw [trimBody_eq]; exact hg
      have hvT : isValidAnswerContent (⟨trimStr body.data⟩ : String) = false := by
        rw [trimBody_eq]; exact hvalid
      rcases hact with hact | hact
      · have hne1 : ("ask_again" : String) ≠ "" := by decide
        have hne2 : ("ask_again" : String) ≠ "answer" := by decide
        have hne5 : ("ask_again" : String) ≠ "clarify" := by decide
        simp only [webhookStep, Bool.false_eq_true, if_false, hidx, if_true,
          hstart, Bool.not_true, Bool.false_and, hcT, hclT, hgT, hvT, hact,
          hne1, hne2, hne5, if_neg, ite_false, ite_true, decide_True,
          decide_False, Bool.true_or, Bool.false_or, Bool.and_false]
      · have hne1 : ("guide" : String) ≠ "" := by decide
        have hne2 : ("guide" : String) ≠ "answer" := by decide
        have hne3 : ("guide" : String) ≠ "ask_again" := by decide
        have hne5 : ("guide" : String) ≠ "clarify" := by decide
        simp only [webhookStep, Bool.false_eq_true, if_false, hidx, if_true,
          hstart, Bool.not_true, Bool.false_and, hcT, hclT, hgT, hvT, hact,
          hne1, hne2, hne3, hne5, if_neg, ite_false, ite_true, decide_True,
          decide_False, Bool.true_or, Bool.false_or, Bool.and_false]
  obtain ⟨s', hesc, hcount, _, hst, _, _, hcidx, hnr⟩ :=
    escalate_spec W job s s.currentIndex
      (if joinParts [sanitizeAssistantReply g.assistant_reply job.language,
        if g.follow_up_question ≠ "" then
          sanitizeAssistantReply g.follow_up_question job.language
        else ""] ≠ "" then
        [.text (joinParts [sanitizeAssistantReply g.assistant_reply
          job.language,
          if g.follow_up_question ≠ "" then
            sanitizeAssistantReply g.follow_up_question job.language
          else ""])]
      else []) false
      (job.questions.getD s.currentIndex "")
  have hturn : ambigTurn W job body g s = s' := by
    rw [ambigTurn, heq, hesc]
    rfl
  rw [hturn]
  exact ⟨hcount, by rw [hst]; exact hstart, hcidx, hnr⟩

/-- C1 (amended): with a ceiling `W = MAX_FOLLOW_UPS ≥ 1` and a fresh
follow-up counter, consecutive turns each resolved as ask_again/guide for
the same question leave the index unchanged and the index unmarked for the
first `W - 1` turns, and the index strictly advances past the question —
and is added to the needs-review set — exactly on the `W`-th such turn
(the counter reaches the ceiling), not on the `(W+1)`-th. -/
theorem followUp_forced_advance (W : Nat) (job : Job) (body : String)
    (g : Guidance) (s : Sess)
    (hW : 1 ≤ W)
    (hidx : s.currentIndex < job.questions.length)
    (hstart : s.interviewStarted = true)
    (hcount0 : getCount s.followUpCounts s.currentIndex = 0)
    (hrev0 : s.needsReview.contains s.currentIndex = false)
    (hc : ambigTurnConds body g) :
    (∀ n, n < W →
      (ambigIter W job body g n s).currentIndex = s.currentIndex ∧
      getCount (ambigIter W job body g n s).followUpCounts s.currentIndex = n ∧
      (ambigIter W job body g n s).needsReview.contains s.currentIndex = false) ∧
    (ambigIter W job body g W s).currentIndex = s.currentIndex + 1 ∧
    (ambigIter W job body g W s).needsReview.contains s.currentIndex = true := by
  have inv : ∀ n, n < W →
      (ambigIter W job body g n s).currentIndex = s.currentIndex ∧
      (ambigIter W job body g n s).interviewStarted = true ∧
      getCount (ambigIter W job body g n s).followUpCounts s.currentIndex = n ∧
      (ambigIter W job body g n s).needsReview.contains s.currentIndex = false := by
    intro n
    induction n with
    | zero => intro _; exact ⟨rfl, hstart, hcount0, hrev0⟩
    | succ k ih =>
      intro hk
      obtain ⟨hci, hst, hcnt, hnr⟩ := ih (by omega)
      have hidx' : (ambigIter W job body g k s).currentIndex <
          job.questions.length := by rw [hci]; exact hidx
      obtain ⟨hcnt', hst', hci', hnr'⟩ :=
        ambigTurn_spec W job body g (ambigIter W job body g k s) hidx' hst hc
      rw [hci, hcnt] at hcnt' hci' hnr'
      have hlt : ¬ W ≤ k + 1 := by omega
      rw [if_neg hlt] at hci'
      rw [decide_eq_false hlt, Bool.false_or, hnr] at hnr'
      exact ⟨by rw [show ambigIter W job body g (k + 1) s =
          ambigTurn W job body g (ambigIter W job body g k s) from rfl, hci'],
        hst', hcnt', hnr'⟩
  refine ⟨fun n hn => ⟨(inv n hn).1, (inv n hn).2.2.1, (inv n hn).2.2.2⟩, ?_, ?_⟩ <;>
  · obtain ⟨m, rfl⟩ : ∃ m, W = m + 1 := ⟨W - 1, by omega⟩
    obtain ⟨hci, hst, hcnt, hnr⟩ := inv m (by omega)
    have hidx' : (ambigIter (m + 1) job body g m s).currentIndex <
        job.questions.length := by rw [hci]; exact hidx
    obtain ⟨hcnt', hst', hci', hnr'⟩ :=
      ambigTurn_spec (m + 1) job body g (ambigIter (m + 1) job body g m s)
        hidx' hst hc
    rw [hci, hcnt] at hci' hnr'
    rw [if_pos (by omega)] at hci'
    rw [decide_eq_true (by omega : m + 1 ≤ m + 1), Bool.true_or] at hnr'
    first
      | exact hci'
      | exact hnr'

/-- C1 counterexample: with the default ceiling `MAX_FOLLOW_UPS = 2`, two
consecutive ask_again turns for question 0 already advance the index to 1
and mark index 0 needs-review — after turn 1 the index is still 0, and the
advance happens on the 2nd (= `MAX_FOLLOW_UPS`-th) turn, so it does not
happen on the `(MAX_FOLLOW_UPS+1)`-th turn as claimed. -/
theorem followUp_advance_cx :
    MAX_FOLLOW_UPS = 2 ∧
    (ambigIter MAX_FOLLOW_UPS jobDemo "abc" gAskAgain 1 sessFresh).currentIndex = 0 ∧
    (ambigIter MAX_FOLLOW_UPS jobDemo "abc" gAskAgain MAX_FOLLOW_UPS
      sessFresh).currentIndex = 1 ∧
    (ambigIter MAX_FOLLOW_UPS jobDemo "abc" gAskAgain MAX_FOLLOW_UPS
      sessFresh).needsReview = [0] := by
  decide

/-- Witness for C1 at the concrete message `"abc"` with delegate action
`ask_again` and the default ceiling 2. -/
theorem followUp_forced_advance_witness :
    ambigTurnConds "abc" gAskAgain ∧
    (ambigIter 2 jobDemo "abc" gAskAgain 2 sessFresh).currentIndex =
      sessFresh.currentIndex + 1 ∧
    (ambigIter 2 jobDemo "abc" gAskAgain 2 sessFresh).needsReview.contains
      sessFresh.currentIndex = true :=
  ⟨by unfold ambigTurnConds; decide,
    (followUp_forced_advance 2 jobDemo "abc" gAskAgain sessFresh (by omega)
      (by decide) rfl rfl rfl (by unfold ambigTurnConds; decide)).2⟩

/-! ## Claim C3 -/

/-- C3: the clarification shortcut (lines 578–585) returns without
`sessionDoc.save()`, so the pushed `MessageSid` is never persisted: after
processing the fresh delivery `("explain", "SM1")` the persisted session is
unchanged (the processed-set still does not contain `"SM1"`), replies were
sent, and an identical redelivery is processed again and re-sends the same
replies — replaying is not idempotent on this branch, contradicting the
documented idempotency. -/
theorem idempotency_gap_cx :
    sessFresh.processedMessageSids.contains "SM1" = false ∧
    clarTurn1.persisted = some sessFresh ∧
    clarTurn1.replies ≠ [] ∧
    clarTurn2 = clarTurn1 := by
  decide

/-! ## Branch shape of the webhook step (used by the ledger and submission
claims): for an existing session, one turn either leaves the persisted
document untouched (a no-save branch or the idempotency skip), saves a
sid-extended/started/confirmation variant, runs the accepted-answer path,
runs the follow-up path, or finalizes a past-the-end session. -/

theorem webhookStep_shape (W : Nat) (job : Job) (s : Sess) (body : String)
    (sid? : Option String) (g : Guidance) (ev : AnalyzeOutcome) :
    ∃ s1 : Sess, s1.currentIndex = s.currentIndex ∧ s1.answers = s.answers ∧
      s1.completed = s.completed ∧ s1.interviewStarted = s.interviewStarted ∧
      ((∃ replies, webhookStep W job (some s) body sid? g ev =
          ⟨some s, replies, []⟩) ∨
       webhookStep W job (some s) body sid? g ev =
         ⟨some { s1 with interviewStarted := true },
          [.question 1 job.questions.length
            (job.questions.getD s.currentIndex "")], []⟩ ∨
       webhookStep W job (some s) body sid? g ev = ⟨some s1, [], []⟩ ∨
       (∃ q msg reply, s.currentIndex < job.questions.length ∧
         webhookStep W job (some s) body sid? g ev =
           acceptAnswer job s1 s.currentIndex q msg reply ev) ∨
       (∃ replies0 reAsk q, webhookStep W job (some s) body sid? g ev =
         escalate W job s1 s.currentIndex replies0 reAsk q) ∨
       (s.completed = false ∧ webhookStep W job (some s) body sid? g ev =
         ⟨some { s1 with completed := true }, [.closing ""],
          [(finalizeAndNotify job { s1 with completed := true } ev).2]⟩)) := by
  rcases sid? with _ | sid
  ·
    by_cases hidx : s.currentIndex < job.questions.length
    · by_cases hsc : (!s.interviewStarted && isStartMessage job (⟨trimStr body.data⟩ : String)) = true
      · exact ⟨s, rfl, rfl, rfl, rfl, Or.inr (Or.inl (by
          simp only [webhookStep, Bool.false_eq_true, if_false, hidx, if_true, hsc]))⟩
      · simp only [Bool.not_eq_true] at hsc
        by_cases hconf : isConfirmationOnly (⟨trimStr body.data⟩ : String) = true
        · exact ⟨s, rfl, rfl, rfl, rfl, Or.inr (Or.inr (Or.inl (by
            simp only [webhookStep, Bool.false_eq_true, if_false, hidx, if_true, hsc, hconf])))⟩
        · simp only [Bool.not_eq_true] at hconf
          by_cases hclar : isClarification (⟨trimStr body.data⟩ : String) = true
          · refine ⟨s, rfl, rfl, rfl, rfl, Or.inl ?_⟩
            simp only [webhookStep, Bool.false_eq_true, if_false, hidx, if_true, hsc, hconf, hclar]
            exact ⟨_, rfl⟩
          · simp only [Bool.not_eq_true] at hclar
            by_cases hguard : (isUserQuestion (⟨trimStr body.data⟩ : String) &&
                !isProbablyAnswer (⟨trimStr body.data⟩ : String)) = true
            · refine ⟨s, rfl, rfl, rfl, rfl, Or.inr (Or.inr (Or.inr (Or.inr
                (Or.inl ?_))))⟩
              simp only [webhookStep, Bool.false_eq_true, if_false, hidx, if_true, hsc, hconf, hclar,
                hguard]
              exact ⟨_, _, _, rfl⟩
            · simp only [Bool.not_eq_true] at hguard
              by_cases hact : (if g.action = "" then "ask_again" else g.action) = "answer"
              · by_cases hvalid : isValidAnswerContent (⟨trimStr body.data⟩ : String) = true
                · refine ⟨s, rfl, rfl, rfl, rfl, Or.inr (Or.inr (Or.inr
                    (Or.inl ?_)))⟩
                  simp only [webhookStep, Bool.false_eq_true, if_false, hidx, if_true, hsc, hconf,
                    hclar, hguard, hact, hvalid, Bool.not_true]
                  exact ⟨_, _, _, trivial, rfl⟩
                · simp only [Bool.not_eq_true] at hvalid
                  refine ⟨s, rfl, rfl, rfl, rfl, Or.inl ?_⟩
                  simp only [webhookStep, Bool.false_eq_true, if_false, hidx, if_true, hsc, hconf,
                    hclar, hguard, hact, hvalid, Bool.not_false]
                  exact ⟨_, rfl⟩
              · by_cases hover : (((if g.action = "" then "ask_again" else g.action) = "ask_again" ||
                    (if g.action = "" then "ask_again" else g.action) = "guide") &&
                    isValidAnswerContent (⟨trimStr body.data⟩ : String)) = true
                · refine ⟨s, rfl, rfl, rfl, rfl, Or.inr (Or.inr (Or.inr
                    (Or.inl ?_)))⟩
                  simp only [webhookStep, Bool.false_eq_true, if_false, hidx, if_true, hsc, hconf,
                    hclar, hguard, hact, hover]
                  exact ⟨_, _, _, trivial, rfl⟩
                · simp only [Bool.not_eq_true] at hover
                  refine ⟨s, rfl, rfl, rfl, rfl, Or.inr (Or.inr (Or.inr
                    (Or.inr (Or.inl ?_))))⟩
                  simp only [webhookStep, Bool.false_eq_true, if_false, hidx, if_true, hsc, hconf,
                    hclar, hguard, hact, hover]
                  exact ⟨_, _, _, rfl⟩
    · by_cases hcomp : s.completed = true
      · refine ⟨s, rfl, rfl, rfl, rfl, Or.inl ?_⟩
        simp only [webhookStep, Bool.false_eq_true, if_false, hidx, hcomp, Bool.not_true,
          if_false, ite_false]
        exact ⟨_, rfl⟩
      · simp only [Bool.not_eq_true] at hcomp
        refine ⟨s, rfl, rfl, rfl, rfl, Or.inr (Or.inr (Or.inr (Or.inr
          (Or.inr ⟨hcomp, ?_⟩))))⟩
        simp only [webhookStep, Bool.false_eq_true, if_false, hidx, hcomp, Bool.not_false,
          if_false, if_true]
  · by_cases hf : s.processedMessageSids.contains sid = true
    · refine ⟨s, rfl, rfl, rfl, rfl, Or.inl ⟨[], ?_⟩⟩
      simp only [webhookStep, hf, if_true]
    · simp only [Bool.not_eq_true] at hf
      by_cases hidx : s.currentIndex < job.questions.length
      · by_cases hsc : (!s.interviewStarted && isStartMessage job (⟨trimStr body.data⟩ : String)) = true
        · exact ⟨{ s with processedMessageSids := s.processedMessageSids ++ [sid] }, rfl, rfl, rfl, rfl, Or.inr (Or.inl (by
            simp only [webhookStep, hf, Bool.false_eq_true, if_false, hidx, if_true, hsc]))⟩
        · simp only [Bool.not_eq_true] at hsc
          by_cases hconf : isConfirmationOnly (⟨trimStr body.data⟩ : String) = true
          · exact ⟨{ s with processedMessageSids := s.processedMessageSids ++ [sid] }, rfl, rfl, rfl, rfl, Or.inr (Or.inr (Or.inl (by
              simp only [webhookStep, hf, Bool.false_eq_true, if_false, hidx, if_true, hsc, hconf])))⟩
          · simp only [Bool.not_eq_true] at hconf
            by_cases hclar : isClarification (⟨trimStr body.data⟩ : String) = true
            · refine ⟨{ s with processedMessageSids := s.processedMessageSids ++ [sid] }, rfl, rfl, rfl, rfl, Or.inl ?_⟩
              simp only [webhookStep, hf, Bool.false_eq_true, if_false, hidx, if_true, hsc, hconf, hclar]
              exact ⟨_, rfl⟩
            · simp only [Bool.not_eq_true] at hclar
              by_cases hguard : (isUserQuestion (⟨trimStr body.data⟩ : String) &&
                  !isProbablyAnswer (⟨trimStr body.data⟩ : String)) = true
              · refine ⟨{ s with processedMessageSids := s.processedMessageSids ++ [sid] }, rfl, rfl, rfl, rfl, Or.inr (Or.inr (Or.inr (Or.inr
                  (Or.inl ?_))))⟩
                simp only [webhookStep, hf, Bool.false_eq_true, if_false, hidx, if_true, hsc, hconf, hclar,
                  hguard]
                exact ⟨_, _, _, rfl⟩
              · simp only [Bool.not_eq_true] at hguard
                by_cases hact : (if g.action = "" then "ask_again" else g.action) = "answer"
                · by_cases hvalid : isValidAnswerContent (⟨trimStr body.data⟩ : String) = true
                  · refine ⟨{ s with processedMessageSids := s.processedMessageSids ++ [sid] }, rfl, rfl, rfl, rfl, Or.inr (Or.inr (Or.inr
                      (Or.inl ?_)))⟩
                    simp only [webhookStep, hf, Bool.false_eq_true, if_false, hidx, if_true, hsc, hconf,
                      hclar, hguard, hact, hvalid, Bool.not_true]
                    exact ⟨_, _, _, trivial, rfl⟩
                  · simp only [Bool.not_eq_true] at hvalid
                    refine ⟨{ s with processedMessageSids := s.processedMessageSids ++ [sid] }, rfl, rfl, rfl, rfl, Or.inl ?_⟩
                    simp only [webhookStep, hf, Bool.false_eq_true, if_false, hidx, if_true, hsc, hconf,
                      hclar, hguard, hact, hvalid, Bool.not_false]
                    exact ⟨_, rfl⟩
                · by_cases hover : (((if g.action = "" then "ask_again" else g.action) = "ask_again" ||
                      (if g.action = "" then "ask_again" else g.action) = "guide") &&
                      isValidAnswerContent (⟨trimStr body.data⟩ : String)) = true
                  · refine ⟨{ s with processedMessageSids := s.processedMessageSids ++ [sid] }, rfl, rfl, rfl, rfl, Or.inr (Or.inr (Or.inr
                      (Or.inl ?_)))⟩
                    simp only [webhookStep, hf, Bool.false_eq_true, if_false, hidx, if_true, hsc, hconf,
                      hclar, hguard, hact, hover]
                    exact ⟨_, _, _, trivial, rfl⟩
                  · simp only [Bool.not_eq_true] at hover
                    refine ⟨{ s with processedMessageSids := s.processedMessageSids ++ [sid] }, rfl, rfl, rfl, rfl, Or.inr (Or.inr (Or.inr
                      (Or.inr (Or.inl ?_))))⟩
                    simp only [webhookStep, hf, Bool.false_eq_true, if_false, hidx, if_true, hsc, hconf,
                      hclar, hguard, hact, hover]
                    exact ⟨_, _, _, rfl⟩
      · by_cases hcomp : s.completed = true
        · refine ⟨{ s with processedMessageSids := s.processedMessageSids ++ [sid] }, rfl, rfl, rfl, rfl, Or.inl ?_⟩
          simp only [webhookStep, hf, Bool.false_eq_true, if_false, hidx, hcomp, Bool.not_true,
            if_false, ite_false]
          exact ⟨_, rfl⟩
        · simp only [Bool.not_eq_true] at hcomp
          refine ⟨{ s with processedMessageSids := s.processedMessageSids ++ [sid] }, rfl, rfl, rfl, rfl, Or.inr (Or.inr (Or.inr (Or.inr
            (Or.inr ⟨hcomp, ?_⟩))))⟩
          simp only [webhookStep, hf, Bool.false_eq_true, if_false, hidx, hcomp, Bool.not_false,
            if_false, if_true]

/-! ## Helper lemmas for the ledger and submission claims -/

theorem writeAnswer_extend (l : List AnswerSlot) (idx : Nat) (q a : String) :
    ∃ t, writeAnswer l idx q a = l ++ t := by
  unfold writeAnswer
  split_ifs
  · exact ⟨[⟨q, a⟩], rfl⟩
  · exact ⟨_, by rw [List.append_assoc]⟩
  · exact ⟨[], by simp⟩

theorem escalate_answers (W : Nat) (job : Job) (s1 : Sess) (idx : Nat)
    (replies0 : List OutMsg) (reAsk : Bool) (q : String) (s' : Sess)
    (h : (escalate W job s1 idx replies0 reAsk q).persisted = some s') :
    s'.answers = s1.answers ∧ s'.completed = s1.completed := by
  obtain ⟨s2, hesc, _, hans, _, _, hcomp, _⟩ :=
    escalate_spec W job s1 idx replies0 reAsk q
  rw [hesc] at h
  injection h with h
  subst h
  exact ⟨hans, hcomp⟩

theorem escalate_submissions (W : Nat) (job : Job) (s1 : Sess) (idx : Nat)
    (replies0 : List OutMsg) (reAsk : Bool) (q : String) :
    (escalate W job s1 idx replies0 reAsk q).submissions = [] := by
  obtain ⟨s2, hesc, _⟩ := escalate_spec W job s1 idx replies0 reAsk q
  rw [hesc]

theorem acceptAnswer_spec (job : Job) (s1 : Sess) (idx : Nat)
    (q msg reply : String) (ev : AnalyzeOutcome) :
    (∃ s', (acceptAnswer job s1 idx q msg reply ev).persisted = some s' ∧
      (∃ t, s'.answers = s1.answers ++ t) ∧
      s'.completed = (decide (idx = job.questions.length - 1) || s1.completed)) ∧
    ((acceptAnswer job s1 idx q msg reply ev).submissions.length =
      if idx = job.questions.length - 1 then 1 else 0) ∧
    (∀ sub ∈ (acceptAnswer job s1 idx q msg reply ev).submissions,
      (ev = .failure →
        sub.aiScore = 0 ∧ sub.aiStrengths = [] ∧ sub.aiWeaknesses = [] ∧
        sub.aiDecision = "review" ∧
        sub.aiSummary = "AI analysis failed; manual review required.") ∧
      ∃ r, OutMsg.closing r ∈ (acceptAnswer job s1 idx q msg reply ev).replies) := by
  obtain ⟨t, ht⟩ := writeAnswer_extend s1.answers idx q msg
  by_cases hlast : idx = job.questions.length - 1
  · have heq : acceptAnswer job s1 idx q msg reply ev =
        ⟨some { s1 with
            answers := writeAnswer s1.answers idx q msg,
            currentIndex := idx + 1,
            completed := true },
          [.closing reply],
          [(finalizeAndNotify job { s1 with
            answers := writeAnswer s1.answers idx q msg,
            currentIndex := idx + 1,
            completed := true } ev).2]⟩ := by
      dsimp only [acceptAnswer]
      rw [if_pos hlast]
    rw [heq]
    refine ⟨⟨_, rfl, ⟨t, ht⟩, by simp [hlast]⟩, by simp [hlast], ?_⟩
    intro sub hsub
    simp only [List.mem_singleton] at hsub
    subst hsub
    refine ⟨?_, ⟨reply, by simp⟩⟩
    intro hev
    subst hev
    exact ⟨rfl, rfl, rfl, rfl, rfl⟩
  · have heq : acceptAnswer job s1 idx q msg reply ev =
        ⟨some { s1 with
            answers := writeAnswer s1.answers idx q msg,
            currentIndex := idx + 1 },
          (if reply ≠ "" then [.text reply] else []) ++
            (if idx + 1 < job.questions.length then
              [.question (idx + 1 + 1) job.questions.length
                (job.questions.getD (idx + 1) "")]
            else []),
          []⟩ := by
      dsimp only [acceptAnswer]
      rw [if_neg hlast]
    rw [heq]
    refine ⟨⟨_, rfl, ⟨t, ht⟩, by simp [hlast]⟩, by simp [hlast], ?_⟩
    intro sub hsub
    simp at hsub

/-! ## Claim C4 -/

theorem webhook_answers_extend (W : Nat) (job : Job) (s : Sess) (body : String)
    (sid? : Option String) (g : Guidance) (ev : AnalyzeOutcome) (s' : Sess)
    (h : (webhookStep W job (some s) body sid? g ev).persisted = some s') :
    ∃ t, s'.answers = s.answers ++ t := by
  obtain ⟨s1, hci, hans, hcomp, hst, hcase⟩ :=
    webhookStep_shape W job s body sid? g ev
  rcases hcase with ⟨replies, heq⟩ | heq | heq | ⟨q, msg, reply, hlt, heq⟩ |
    ⟨replies0, reAsk, q, heq⟩ | ⟨hc0, heq⟩
  · rw [heq] at h
    injection h with h
    subst h
    exact ⟨[], by simp⟩
  · rw [heq] at h
    injection h with h
    subst h
    exact ⟨[], by simp [hans]⟩
  · rw [heq] at h
    injection h with h
    subst h
    exact ⟨[], by simp [hans]⟩
  · rw [heq] at h
    obtain ⟨⟨s'', hps, ⟨t, ht⟩, _⟩, _, _⟩ :=
      acceptAnswer_spec job s1 s.currentIndex q msg reply ev
    rw [hps] at h
    injection h with h
    subst h
    exact ⟨t, by rw [ht, hans]⟩
  · rw [heq] at h
    obtain ⟨ha, _⟩ := escalate_answers W job s1 s.currentIndex replies0 reAsk q s' h
    exact ⟨[], by rw [ha, hans]; simp⟩
  · rw [heq] at h
    injection h with h
    subst h
    exact ⟨[], by simp [hans]⟩

/-- C4 (ledger monotonicity): for every session and every question index,
once the answer-ledger slot at that index holds a non-empty answer, no
webhook turn — whatever its classification or delegate action — changes
that slot's content: the turn's persisted ledger extends the previous one,
so an already-written slot is never overwritten. -/
theorem ledger_monotone (W : Nat) (job : Job) (s : Sess) (body : String)
    (sid? : Option String) (g : Guidance) (ev : AnalyzeOutcome) (s' : Sess)
    (j : Nat) (slot : AnswerSlot)
    (h : (webhookStep W job (some s) body sid? g ev).persisted = some s')
    (hj : s.answers.get? j = some slot) (hne : slot.answer ≠ "") :
    s'.answers.get? j = some slot := by
  obtain ⟨t, ht⟩ := webhook_answers_extend W job s body sid? g ev s' h
  rw [ht]
  have hjlen : j < s.answers.length := by
    by_contra hc
    rw [List.get?_eq_none.mpr (by omega)] at hj
    exact Option.noConfusion hj
  rw [List.get?_eq_getElem?, List.getElem?_append_left hjlen,
    ← List.get?_eq_getElem?]
  exact hj

/-- Witness for C4: a turn that writes the answer for question 1 leaves the
already-written slot 0 unchanged. -/
theorem ledger_monotone_witness :
    (⟨"q0", "seven years of Go"⟩ : AnswerSlot).answer ≠ "" ∧
    (⟨2, [⟨"q0", "seven years of Go"⟩,
        ⟨"q1", "I built the billing service."⟩], ["SID4"], true, [], [],
      false⟩ : Sess).answers.get? 0 = some ⟨"q0", "seven years of Go"⟩ :=
  ⟨by decide,
    ledger_monotone 2 jobDemo
      ⟨1, [⟨"q0", "seven years of Go"⟩], [], true, [], [], false⟩
      "I built the billing service." (some "SID4") gAnswer .failure
      ⟨2, [⟨"q0", "seven years of Go"⟩,
          ⟨"q1", "I built the billing service."⟩], ["SID4"], true, [], [],
        false⟩
      0 ⟨"q0", "seven years of Go"⟩ (by decide) rfl (by decide)⟩

/-! ## Claim C8 -/

theorem webhookStep_none (W : Nat) (job : Job) (body : String)
    (sid? : Option String) (g : Guidance) (ev : AnalyzeOutcome) :
    (webhookStep W job none body sid? g ev).submissions = [] := by
  unfold webhookStep
  dsimp only
  split_ifs <;> rfl

/-- C8: a webhook turn creates at most one Submission record; a turn with no
open session creates none; for an open session, a Submission is created
exactly when the turn transitions the session to completed (so every
completed session persists exactly one Submission); and when the evaluation
request fails, the created Submission degrades to score 0, empty strengths
and weaknesses, decision "review" and a summary noting manual review — and
the closing message is still among the turn's outbound replies, so the
failure neither fails the turn nor suppresses the closing message. -/
theorem submission_once_and_fallback (W : Nat) (job : Job)
    (sess? : Option Sess) (body : String) (sid? : Option String)
    (g : Guidance) (ev : AnalyzeOutcome) :
    (webhookStep W job sess? body sid? g ev).submissions.length ≤ 1 ∧
    (sess? = none → (webhookStep W job sess? body sid? g ev).submissions = []) ∧
    (∀ s, sess? = some s → s.completed = false →
      ((webhookStep W job sess? body sid? g ev).submissions ≠ [] ↔
        ∃ s', (webhookStep W job sess? body sid? g ev).persisted = some s' ∧
          s'.completed = true)) ∧
    (∀ s sub, sess? = some s →
      (webhookStep W job sess? body sid? g ev).submissions = [sub] →
      (ev = .failure →
        sub.aiScore = 0 ∧ sub.aiStrengths = [] ∧ sub.aiWeaknesses = [] ∧
        sub.aiDecision = "review" ∧
        sub.aiSummary = "AI analysis failed; manual review required.") ∧
      ∃ r, OutMsg.closing r ∈ (webhookStep W job sess? body sid? g ev).replies) := by
  rcases sess? with _ | s
  · refine ⟨?_, fun _ => webhookStep_none W job body sid? g ev,
      fun s hs => Option.noConfusion hs,
      fun s sub hs => Option.noConfusion hs⟩
    rw [webhookStep_none]
    simp
  · obtain ⟨s1, hci, hans, hcomp, hst, hcase⟩ :=
      webhookStep_shape W job s body sid? g ev
    rcases hcase with ⟨replies, heq⟩ | heq | heq | ⟨q, msg, reply, hlt, heq⟩ |
      ⟨replies0, reAsk, q, heq⟩ | ⟨hc0, heq⟩
    -- no-save leaves, started leaf, confirmation leaf: no submissions,
    -- persisted stays open
    · refine ⟨by rw [heq]; simp, fun hn => Option.noConfusion hn, ?_, ?_⟩
      · intro s0 hs0 hcomp0
        injection hs0 with hs0
        subst hs0
        rw [heq]
        constructor
        · intro hne
          exact absurd rfl hne
        · rintro ⟨s', hp, hc⟩
          injection hp with hp
          subst hp
          rw [hcomp0] at hc
          exact Bool.noConfusion hc
      · intro s0 sub hs0 hsub
        rw [heq] at hsub
        exact List.noConfusion hsub
    · refine ⟨by rw [heq]; simp, fun hn => Option.noConfusion hn, ?_, ?_⟩
      · intro s0 hs0 hcomp0
        injection hs0 with hs0
        subst hs0
        rw [heq]
        constructor
        · intro hne
          exact absurd rfl hne
        · rintro ⟨s', hp, hc⟩
          injection hp with hp
          subst hp
          rw [hcomp, hcomp0] at hc
          exact Bool.noConfusion hc
      · intro s0 sub hs0 hsub
        rw [heq] at hsub
        exact List.noConfusion hsub
    · refine ⟨by rw [heq]; simp, fun hn => Option.noConfusion hn, ?_, ?_⟩
      · intro s0 hs0 hcomp0
        injection hs0 with hs0
        subst hs0
        rw [heq]
        constructor
        · intro hne
          exact absurd rfl hne
        · rintro ⟨s', hp, hc⟩
          injection hp with hp
          subst hp
          rw [hcomp, hcomp0] at hc
          exact Bool.noConfusion hc
      · intro s0 sub hs0 hsub
        rw [heq] at hsub
        exact List.noConfusion hsub
    -- accepted-answer leaf
    · obtain ⟨⟨s'', hps, _, hcomp''⟩, hlen, hsubs⟩ :=
        acceptAnswer_spec job s1 s.currentIndex q msg reply ev
      refine ⟨by rw [heq, hlen]; split <;> omega,
        fun hn => Option.noConfusion hn, ?_, ?_⟩
      · intro s0 hs0 hcomp0
        injection hs0 with hs0
        subst hs0
        rw [heq]
        constructor
        · intro hne
          by_cases hlast : s.currentIndex = job.questions.length - 1
          · refine ⟨s'', hps, ?_⟩
            rw [hcomp'', hcomp, hcomp0, decide_eq_true hlast]
            rfl
          · rw [if_neg hlast] at hlen
            exact absurd (List.length_eq_zero.mp hlen) hne
        · rintro ⟨s', hp, hc⟩
          rw [hps] at hp
          injection hp with hp
          subst hp
          rw [hcomp'', hcomp, hcomp0, Bool.or_false] at hc
          rw [decide_eq_true_eq] at hc
          rw [if_pos hc] at hlen
          intro hnil
          rw [hnil] at hlen
          exact absurd hlen (by simp)
      · intro s0 sub hs0 hsub
        rw [heq] at hsub ⊢
        have hmem : sub ∈ (acceptAnswer job s1 s.currentIndex q msg reply
            ev).submissions := by
          rw [hsub]
          exact List.mem_singleton_self sub
        exact hsubs sub hmem
    -- follow-up leaf
    · refine ⟨by rw [heq, escalate_submissions]; simp,
        fun hn => Option.noConfusion hn,
        ?_, ?_⟩
      · intro s0 hs0 hcomp0
        injection hs0 with hs0
        subst hs0
        rw [heq, escalate_submissions]
        constructor
        · intro hne
          exact absurd rfl hne
        · rintro ⟨s', hp, hc⟩
          obtain ⟨_, hcpres⟩ := escalate_answers W job s1 s.currentIndex
            replies0 reAsk q s' hp
          rw [hcpres, hcomp, hcomp0] at hc
          exact Bool.noConfusion hc
      · intro s0 sub hs0 hsub
        rw [heq, escalate_submissions] at hsub
        exact List.noConfusion hsub
    -- past-the-end finalization leaf
    · refine ⟨by rw [heq]; simp, fun hn => Option.noConfusion hn, ?_, ?_⟩
      · intro s0 hs0 hcomp0
        injection hs0 with hs0
        subst hs0
        rw [heq]
        constructor
        · intro _
          exact ⟨_, rfl, rfl⟩
        · intro _
          simp
      · intro s0 sub hs0 hsub
        rw [heq] at hsub ⊢
        injection hsub with hsub _
        subst hsub
        refine ⟨?_, ⟨"", by simp⟩⟩
        intro hev
        subst hev
        exact ⟨rfl, rfl, rfl, rfl, rfl⟩


/-- Witness for C8: the last answer of a three-question interview with a
failing evaluation request. -/
theorem submission_once_and_fallback_witness :
    ((webhookStep 2 jobDemo
        (some ⟨2, [⟨"q0", "a0 long answer"⟩, ⟨"q1", "b1 long answer"⟩], [],
          true, [], [], false⟩)
        "My final answer is detailed." (some "SID9") gAnswer
        .failure).submissions =
      [⟨[⟨"q0", "a0 long answer"⟩, ⟨"q1", "b1 long answer"⟩,
          ⟨"q2", "My final answer is detailed."⟩], 0, [], [], "review",
        "AI analysis failed; manual review required."⟩]) ∧
    ((⟨[⟨"q0", "a0 long answer"⟩, ⟨"q1", "b1 long answer"⟩,
          ⟨"q2", "My final answer is detailed."⟩], 0, [], [], "review",
        "AI analysis failed; manual review required."⟩ : Submission).aiScore = 0 ∧
      (⟨[⟨"q0", "a0 long answer"⟩, ⟨"q1", "b1 long answer"⟩,
          ⟨"q2", "My final answer is detailed."⟩], 0, [], [], "review",
        "AI analysis failed; manual review required."⟩ : Submission).aiDecision =
        "review") ∧
    ∃ r, OutMsg.closing r ∈ (webhookStep 2 jobDemo
        (some ⟨2, [⟨"q0", "a0 long answer"⟩, ⟨"q1", "b1 long answer"⟩], [],
          true, [], [], false⟩)
        "My final answer is detailed." (some "SID9") gAnswer
        .failure).replies :=
  ⟨by decide,
    ⟨(((submission_once_and_fallback 2 jobDemo
        (some ⟨2, [⟨"q0", "a0 long answer"⟩, ⟨"q1", "b1 long answer"⟩], [],
          true, [], [], false⟩)
        "My final answer is detailed." (some "SID9") gAnswer
        .failure).2.2.2 _ (⟨[⟨"q0", "a0 long answer"⟩, ⟨"q1", "b1 long answer"⟩,
          ⟨"q2", "My final answer is detailed."⟩], 0, [], [], "review",
        "AI analysis failed; manual review required."⟩) rfl (by decide)).1 rfl).1,
      (((submission_once_and_fallback 2 jobDemo
        (some ⟨2, [⟨"q0", "a0 long answer"⟩, ⟨"q1", "b1 long answer"⟩], [],
          true, [], [], false⟩)
        "My final answer is detailed." (some "SID9") gAnswer
        .failure).2.2.2 _ (⟨[⟨"q0", "a0 long answer"⟩, ⟨"q1", "b1 long answer"⟩,
          ⟨"q2", "My final answer is detailed."⟩], 0, [], [], "review",
        "AI analysis failed; manual review required."⟩) rfl (by decide)).1 rfl).2.2.2.1⟩,
    ((submission_once_and_fallback 2 jobDemo
        (some ⟨2, [⟨"q0", "a0 long answer"⟩, ⟨"q1", "b1 long answer"⟩], [],
          true, [], [], false⟩)
        "My final answer is detailed." (some "SID9") gAnswer
        .failure).2.2.2 _ (⟨[⟨"q0", "a0 long answer"⟩, ⟨"q1", "b1 long answer"⟩,
          ⟨"q2", "My final answer is detailed."⟩], 0, [], [], "review",
        "AI analysis failed; manual review required."⟩) rfl (by decide)).2⟩
